import Mathlib

/-!
Verification development for the PDF structural-segmentation-and-splitting
engine of the `google-book-qc-cf` repository.

The analyzer (`split_pdf_service/analyze_pdf.py`) and the splitter
(`split_pdf/split_pdf.py`) are shallowly embedded below.  Strings are
modelled as `List Char`; a PDF document is modelled by its page count
together with the per-page header text (the geometric header extraction of
`_extract_header_text` is a PyMuPDF call and is taken as input).  The
eleven compiled regular expressions of `PDFAnalyzer.__init__` are
translated pattern by pattern into executable matchers with Python `re`
semantics (IGNORECASE, MULTILINE, leftmost match, greedy quantifiers,
`finditer` non-overlapping scanning).
-/

namespace BookQC

/-- The characters matched by Python's `\s` on ASCII text (`re` also
accepts some non-ASCII unicode whitespace; the headers considered here are
ASCII). -/
def pyIsSpace (c : Char) : Bool :=
  c = ' ' || c = '\t' || c = '\n' || c = '\r' || c = '\x0b' || c = '\x0c'

/-- ASCII decimal digit, as matched by `\d` on ASCII text. -/
def isDigit (c : Char) : Bool :=
  '0' ≤ c && c ≤ '9'

/-- Case-insensitive character comparison (`re.IGNORECASE`). -/
def lowerEq (a b : Char) : Bool :=
  a.toLower == b.toLower

/-- Shorthand: view a string literal as the `List Char` it denotes. -/
def tl (s : String) : List Char :=
  s.toList

/-- `str.strip()`: drop leading and trailing whitespace. -/
def pyStrip (s : List Char) : List Char :=
  ((s.dropWhile pyIsSpace).reverse.dropWhile pyIsSpace).reverse

/-- `str.replace('\n', ' ')`. -/
def pyReplaceNL (s : List Char) : List Char :=
  s.map (fun c => if c = '\n' then ' ' else c)

/-- `str.upper()` (ASCII; the chapter names produced here are ASCII). -/
def pyUpper (s : List Char) : List Char :=
  s.map Char.toUpper

/-- `needle in hay` for Python strings: substring containment. -/
def containsSub (needle hay : List Char) : Bool :=
  hay.tails.any (fun t => needle.isPrefixOf t)

/-- First whitespace-delimited word of `name.strip().split()`, or `"NA"`
when there is none — the tag extraction of `_find_chapters`
(`words[0] if words else "NA"`). -/
def firstWordTag (s : List Char) : List Char :=
  let w := ((pyStrip s).dropWhile pyIsSpace).takeWhile (fun c => !(pyIsSpace c))
  if w.isEmpty then tl "NA" else w

/-!  ### Regular-expression matchers

A matcher at a fixed position has type `List Char → Option (List Char ×
List Char)`: on success it returns the consumed input characters (the
matched text, in original case) and the remaining input.  Greedy
quantifiers followed by disjoint character classes need no backtracking
and are implemented by maximal munch; the optional groups of the source
patterns are implemented with full continuation backtracking (`matchAlt`
over whole-match alternatives). -/

/-- On-success result of a positional matcher: matched text and rest. -/
abbrev MRes := Option (List Char × List Char)

/-- Match a literal, case-insensitively, returning the consumed input. -/
def litCI : List Char → List Char → MRes
  | [], s => some ([], s)
  | _ :: _, [] => none
  | l :: ls, c :: cs =>
    if lowerEq l c then (litCI ls cs).map (fun p => (c :: p.1, p.2)) else none

/-- `aLit lit` : the literal `lit`, case-insensitively. -/
def aLit (lit : String) (s : List Char) : MRes :=
  litCI lit.toList s

/-- `\s*` (greedy; always succeeds). -/
def aStarWS (s : List Char) : MRes :=
  some (s.takeWhile pyIsSpace, s.dropWhile pyIsSpace)

/-- `\s+` (greedy). -/
def aPlusWS : List Char → MRes
  | [] => none
  | c :: r =>
    if pyIsSpace c then some (c :: r.takeWhile pyIsSpace, r.dropWhile pyIsSpace)
    else none

/-- `\d+` (greedy). -/
def aPlusDigits : List Char → MRes
  | [] => none
  | c :: r =>
    if isDigit c then some (c :: r.takeWhile isDigit, r.dropWhile isDigit)
    else none

/-- A single character drawn from an explicit class, e.g. `[:.\-]`. -/
def aCharOf (cs : List Char) : List Char → MRes
  | [] => none
  | c :: r => if cs.contains c then some ([c], r) else none

/-- `.*` (greedy; `.` does not match a newline). -/
def aDotStar (s : List Char) : MRes :=
  some (s.takeWhile (fun c => c ≠ '\n'), s.dropWhile (fun c => c ≠ '\n'))

/-- Sequencing of two matchers; matched texts are concatenated. -/
def mSeq (p q : List Char → MRes) (s : List Char) : MRes :=
  match p s with
  | some (m1, r1) =>
    match q r1 with
    | some (m2, r2) => some (m1 ++ m2, r2)
    | none => none
  | none => none

/-- Sequencing of a list of matchers. -/
def mChain : List (List Char → MRes) → List Char → MRes
  | [], s => some ([], s)
  | p :: ps, s => mSeq p (mChain ps) s

/-- Ordered alternation over whole matches (regex backtracking order:
the left alternative, with its complete continuation, is preferred). -/
def mAlt (p q : List Char → MRes) (s : List Char) : MRes :=
  match p s with
  | some r => some r
  | none => q s

/-- A greedily taken optional single-token group (`X?` where a success of
`X` can never make the continuation fail — used for `[:.\-]?`). -/
def mOpt (p : List Char → MRes) (s : List Char) : MRes :=
  match p s with
  | some r => some r
  | none => some ([], s)

/-- `(SOLVED|UNSOLVED|SOLUTIONS)` — the three alternatives have pairwise
non-overlapping case-insensitive prefixes, so alternation at the token
level is exact. -/
def aTagWord (s : List Char) : MRes :=
  mAlt (aLit "SOLVED") (mAlt (aLit "UNSOLVED") (aLit "SOLUTIONS")) s

/-- `(SOLVED|UNSOLVED|SOLUTIONS)?\s*` followed by `core`, with full
backtracking into the optional group. -/
def mOptTagWS (core : List Char → MRes) (s : List Char) : MRes :=
  mAlt (mChain [aTagWord, aStarWS, core]) (mSeq aStarWS core) s

/-!  The eleven patterns of `PDFAnalyzer.__init__`, in list order.  Every
pattern is `^`-anchored (MULTILINE), so a match attempt only succeeds at a
line start; the matchers below describe one attempt at a fixed position. -/

/-- `^(SOLVED|UNSOLVED|SOLUTIONS)\s+Self\s+Assessment\s+Paper-\d+` -/
def pat1 (s : List Char) : MRes :=
  mChain [aTagWord, aPlusWS, aLit "Self", aPlusWS, aLit "Assessment",
    aPlusWS, aLit "Paper-", aPlusDigits] s

/-- `^Self\s+Assessment\s+Paper-\d+` -/
def pat2 (s : List Char) : MRes :=
  mChain [aLit "Self", aPlusWS, aLit "Assessment", aPlusWS, aLit "Paper-",
    aPlusDigits] s

/-- `^(SOLVED|UNSOLVED|SOLUTIONS)?\s*Sample\s+Question\s+(?:SOLVED\s+)?Paper-\d+` -/
def pat3 (s : List Char) : MRes :=
  mOptTagWS (mSeq
    (mChain [aLit "Sample", aPlusWS, aLit "Question", aPlusWS])
    (mAlt (mChain [aLit "SOLVED", aPlusWS, aLit "Paper-", aPlusDigits])
          (mChain [aLit "Paper-", aPlusDigits]))) s

/-- `^(SOLVED|UNSOLVED|SOLUTIONS)?\s*(Practice|Mock|Test|Question)\s+(Paper|Test)?-\d+` -/
def pat4 (s : List Char) : MRes :=
  mOptTagWS (mSeq
    (mSeq (mAlt (aLit "Practice") (mAlt (aLit "Mock")
      (mAlt (aLit "Test") (aLit "Question")))) aPlusWS)
    (mAlt (mChain [mAlt (aLit "Paper") (aLit "Test"), aLit "-", aPlusDigits])
          (mChain [aLit "-", aPlusDigits]))) s

/-- `^(SOLVED|UNSOLVED|SOLUTIONS)?\s*SQP\s*-\s*\d+` -/
def pat5 (s : List Char) : MRes :=
  mOptTagWS (mChain [aLit "SQP", aStarWS, aLit "-", aStarWS, aPlusDigits]) s

/-- `^(SOLVED|UNSOLVED|SOLUTIONS)?\s*SAP\s*-\s*\d+` -/
def pat6 (s : List Char) : MRes :=
  mOptTagWS (mChain [aLit "SAP", aStarWS, aLit "-", aStarWS, aPlusDigits]) s

/-- `^(SOLVED|UNSOLVED|SOLUTIONS)?\s*PP\s*-\s*\d+` -/
def pat7 (s : List Char) : MRes :=
  mOptTagWS (mChain [aLit "PP", aStarWS, aLit "-", aStarWS, aPlusDigits]) s

/-- `^Mind\s+Map\s*-\s*\d+` -/
def pat8 (s : List Char) : MRes :=
  mChain [aLit "Mind", aPlusWS, aLit "Map", aStarWS, aLit "-", aStarWS,
    aPlusDigits] s

/-- `^Mind\s+map` -/
def pat9 (s : List Char) : MRes :=
  mChain [aLit "Mind", aPlusWS, aLit "map"] s

/-- `^On\s+tips` -/
def pat10 (s : List Char) : MRes :=
  mChain [aLit "On", aPlusWS, aLit "tips"] s

/-- `^\s*(SOLVED|UNSOLVED|SOLUTIONS)?\s*(chapter|unit|part)\s*\d+\s*[:.\-]?\s*.*` -/
def pat11 (s : List Char) : MRes :=
  mSeq aStarWS (mOptTagWS (mChain
    [mAlt (aLit "chapter") (mAlt (aLit "unit") (aLit "part")), aStarWS,
     aPlusDigits, aStarWS, mOpt (aCharOf [':', '.', '-']), aStarWS,
     aDotStar])) s

/-- A positional matcher viewed as `finditer` uses it: only the matched
text is kept. -/
def tryPat (p : List Char → MRes) (s : List Char) : Option (List Char) :=
  (p s).map Prod.fst

/-- `re.finditer` for a `^`-anchored MULTILINE pattern: scan left to
right, attempting the pattern at each line start; after a match, resume
immediately after the matched text (the source patterns never match the
empty string, so an empty match is stepped over like a failure). -/
def reFinditerGo (t : List Char → Option (List Char)) :
    Nat → Bool → List Char → List (List Char)
  | 0, _, _ => []
  | _ + 1, _, [] => []
  | fuel + 1, atLineStart, c :: r =>
    if atLineStart then
      match t (c :: r) with
      | some (m@(_ :: _)) =>
        m :: reFinditerGo t fuel (m.getLast? == some '\n') ((c :: r).drop m.length)
      | _ => reFinditerGo t fuel (c == '\n') r
    else reFinditerGo t fuel (c == '\n') r

/-- `re.finditer` over a whole string (the fuel `s.length + 1` dominates
the number of scanning steps, each of which consumes at least one
character). -/
def reFinditer (t : List Char → Option (List Char)) (s : List Char) :
    List (List Char) :=
  reFinditerGo t (s.length + 1) true s

/-- `self.patterns`, in list (priority) order. -/
def patternList : List (List Char → Option (List Char)) :=
  [tryPat pat1, tryPat pat2, tryPat pat3, tryPat pat4, tryPat pat5,
   tryPat pat6, tryPat pat7, tryPat pat8, tryPat pat9, tryPat pat10,
   tryPat pat11]

/-- `PDFAnalyzer._match_patterns`: run every pattern over the text with
`finditer`, and for each match record
`name = match.group(0).strip().replace('\n', ' ')` together with
`specificity = len(name)`. -/
def match_patterns (text : List Char) : List (List Char × Nat) :=
  ((patternList.map (fun p => reFinditer p text)).flatten).map
    (fun m =>
      let name := pyReplaceNL (pyStrip m)
      (name, name.length))

/-!  ### Best-match selection and chapter detection -/

/-- Insertion step of a stable descending sort on specificity: an element
is placed after every earlier element whose key is at least as large. -/
def insertDescSpec (x : List Char × Nat) :
    List (List Char × Nat) → List (List Char × Nat)
  | [] => [x]
  | y :: ys => if y.2 ≤ x.2 then x :: y :: ys else y :: insertDescSpec x ys

/-- `page_matches.sort(key=lambda x: x['specificity'], reverse=True)`:
Python's sort is stable, and a stable descending sort is unique, so this
insertion sort computes the same list. -/
def sortDescSpec (l : List (List Char × Nat)) : List (List Char × Nat) :=
  l.foldr insertDescSpec []

/-- The best match of a page (`page_matches[0]` after the stable
descending sort), when the page has any match. -/
def bestMatch (text : List Char) : Option (List Char × Nat) :=
  (sortDescSpec (match_patterns text)).head?

/-- An entry of `found_chapters`. -/
structure Detection where
  name : List Char
  page : Nat
  tag : List Char
deriving DecidableEq, Repr

/-- Insertion step of a stable ascending sort on page number. -/
def insertAscPage (x : Detection) : List Detection → List Detection
  | [] => [x]
  | y :: ys => if x.page ≤ y.page then x :: y :: ys else y :: insertAscPage x ys

/-- `found_chapters.sort(key=lambda x: x['page'])` (stable ascending). -/
def sortAscPage (l : List Detection) : List Detection :=
  l.foldr insertAscPage []

/-- The page loop of `PDFAnalyzer._find_chapters`: `pageIdx` is the
0-based page index, `acc` the accumulated `found_chapters` (the duplicate
check `fc['name'] == chapter_name and fc['page'] == page_num + 1` is
translated verbatim). -/
def findChaptersGo : Nat → List (List Char) → List Detection → List Detection
  | _, [], acc => acc
  | pageIdx, h :: rest, acc =>
    let acc' :=
      match bestMatch h with
      | none => acc
      | some best =>
        let chapterName := best.1
        let tag := firstWordTag chapterName
        let page := pageIdx + 1
        if acc.any (fun fc => fc.name == chapterName && fc.page == page) then acc
        else acc ++ [⟨chapterName, page, tag⟩]
    findChaptersGo (pageIdx + 1) rest acc'

/-- `PDFAnalyzer._find_chapters`, over the list of per-page header texts. -/
def find_chapters (headers : List (List Char)) : List Detection :=
  sortAscPage (findChaptersGo 0 headers [])

/-!  ### Filename and folder classification
(`PDFAnalyzer._determine_filename_and_folder`) -/

/-- One attempt of `re.search(r'PREFIX\s+Paper[- ]?(\d+)', ..)` at a fixed
position, for a one-word prefix: returns the captured digit group.  The
optional `[- ]` is tried with the character first and, on failure of the
following `\d+`, without it (exact backtracking order). -/
def paperNumAt (word : String) (s : List Char) : Option (List Char) := do
  let (_, r1) ← aLit word s
  let (_, r2) ← aPlusWS r1
  let (_, r3) ← aLit "Paper" r2
  (match r3 with
   | c :: r4 =>
     if c = '-' || c = ' ' then (aPlusDigits r4).map Prod.fst
     else none
   | [] => none) <|> (aPlusDigits r3).map Prod.fst

/-- `re.search` for the attempt `att`: leftmost position wins. -/
def reSearchG (att : List Char → Option (List Char)) : List Char → Option (List Char)
  | [] => att []
  | c :: r =>
    match att (c :: r) with
    | some g => some g
    | none => reSearchG att r

/-- `re.search(r'Self\s+Assessment\s+Paper[- ]?(\d+)', name, re.IGNORECASE)`
— `paperNumAt ""` contributes the trailing `\s+Paper[- ]?(\d+)`. -/
def searchSA (name : List Char) : Option (List Char) :=
  reSearchG (fun s => do
    let (_, r1) ← aLit "Self" s
    let (_, r2) ← aPlusWS r1
    let (_, r3) ← aLit "Assessment" r2
    paperNumAt "" r3) name

/-- `re.search(r'Practice\s+Paper[- ]?(\d+)', name, re.IGNORECASE)`. -/
def searchPractice (name : List Char) : Option (List Char) :=
  reSearchG (paperNumAt "Practice") name

/-- `re.search(r'Question\s+Paper[- ]?(\d+)', name, re.IGNORECASE)`. -/
def searchQuestion (name : List Char) : Option (List Char) :=
  reSearchG (paperNumAt "Question") name

/-- `PDFAnalyzer._determine_filename_and_folder`: the if/elif classification
chain over the three searches and the tag. -/
def determine_filename_and_folder (chapterName tag : List Char) :
    Option (List Char) × Option (List Char) :=
  let sa := searchSA chapterName
  let pr := searchPractice chapterName
  let qu := searchQuestion chapterName
  if sa.isSome && tag == tl "UNSOLVED" then
    (some (tl "SAP-" ++ sa.getD [] ++ tl ".pdf"), some (tl "question_papers"))
  else if pr.isSome && tag == tl "UNSOLVED" then
    (some (tl "PP-" ++ pr.getD [] ++ tl ".pdf"), some (tl "question_papers"))
  else
    match qu with
    | some n =>
      if tag == tl "SOLVED" then
        (some (tl "SQP-" ++ n ++ tl ".pdf"), some (tl "question_papers"))
      else if tag == tl "SOLUTIONS" then
        (some (tl "SQP-" ++ n ++ tl "-SOLUTION.pdf"), some (tl "answer_keys"))
      else if tag == tl "UNSOLVED" then
        (some (tl "SQP-" ++ n ++ tl ".pdf"), some (tl "question_papers"))
      else (none, none)
    | none => (none, none)

/-!  ### Page-range resolution (`PDFAnalyzer._process_chapters`) -/

/-- A resolved chapter of the analysis result (`chapter_data`); the
`pdf_filename`/`pdf_folder` keys are present exactly when both are set
(the source guard `if pdf_filename and pdf_folder`). -/
structure ChapterOut where
  chapter_name : List Char
  tag : List Char
  chapter_start_page_number : Nat
  chapter_end_page_number : Nat
  pdf_filename : Option (List Char)
  pdf_folder : Option (List Char)
deriving DecidableEq, Repr

/-- Python truthiness of an optional string (`None` and `""` are falsy). -/
def truthy : Option (List Char) → Bool
  | some (_ :: _) => true
  | _ => false

/-- Build one `chapter_data` entry from a detection and its resolved end
page. -/
def mkChapterOut (c : Detection) (endPage : Nat) : ChapterOut :=
  let fnfd := determine_filename_and_folder c.name c.tag
  let keep := truthy fnfd.1 && truthy fnfd.2
  { chapter_name := c.name
    tag := c.tag
    chapter_start_page_number := c.page
    chapter_end_page_number := endPage
    pdf_filename := if keep then fnfd.1 else none
    pdf_folder := if keep then fnfd.2 else none }

/-- `PDFAnalyzer._process_chapters`: the end page is the next detection's
page minus one, the shared page itself when the next detection collides on
the same page, and the total page count for the final detection. -/
def process_chapters : List Detection → Nat → List ChapterOut
  | [], _ => []
  | [c], totalPages => [mkChapterOut c totalPages]
  | c :: c' :: rest, totalPages =>
    let endPage := if c'.page == c.page then c.page else c'.page - 1
    mkChapterOut c endPage :: process_chapters (c' :: rest) totalPages

/-!  ### Confidence score (`PDFAnalyzer._calculate_confidence_score`) -/

/-- The `specific_patterns` token list, checked verbatim (note that the
name is uppercased but the tokens `Practice` and `Question` are not, so
those two can never occur in the uppercased name). -/
def specificPatterns : List (List Char) :=
  [tl "SAP", tl "SQP", tl "PP", tl "Practice", tl "Question"]

/-- `PDFAnalyzer._calculate_confidence_score`.  The float comparison
`len(found_chapters) / total_pages > 0.1` is modelled exactly over the
rationals as `10 * len > total` (for page counts below astronomical sizes
the IEEE-754 comparison agrees with the rational one). -/
def calculate_confidence_score (found : List Detection) (totalPages : Nat) : Nat :=
  if found.isEmpty then 30
  else
    let confidence := 70
    let confidence := if 10 * found.length > totalPages then confidence + 10 else confidence
    let confidence :=
      if found.any (fun c => specificPatterns.any (fun p => containsSub p (pyUpper c.name)))
      then confidence + 5 else confidence
    min confidence 95

/-!  ### The analysis result (`PDFAnalyzer.analyze_pdf`) -/

structure AnalysisResult where
  confidence_score : Nat
  book_title : List Char
  book_start_page : Nat
  book_end_page : Nat
  chapters : List ChapterOut
deriving DecidableEq, Repr

/-- `PDFAnalyzer.analyze_pdf`, over a document given by its book title
(extracted by `_extract_book_title` from metadata or the first page) and
the per-page header texts (extracted by `_extract_header_text`); the page
count is the number of pages. -/
def analyze_pdf (bookTitle : List Char) (headers : List (List Char)) :
    AnalysisResult :=
  let foundChapters := find_chapters headers
  let chapters := process_chapters foundChapters headers.length
  { confidence_score := calculate_confidence_score foundChapters headers.length
    book_title := bookTitle
    book_start_page := 1
    book_end_page := headers.length
    chapters := chapters }

/-!  ## The splitter (`split_pdf/split_pdf.py`)

A chapter as the splitter reads it from the analysis data (each field is a
`chapter.get(..)`, hence optional; page numbers are arbitrary integers in
the JSON). -/

structure ChapterIn where
  chapter_name : List Char
  chapter_start_page_number : Option Int
  chapter_end_page_number : Option Int
  pdf_filename : Option (List Char)
  pdf_folder : Option (List Char)
deriving DecidableEq, Repr

/-- The dictionary appended to `split_files` for a successfully split
chapter.  `path` is the output path relative to the output directory
(`os.path.join(output_dir, folder, filename)`). -/
structure SplitUnit where
  filename : List Char
  folder : List Char
  path : List Char
  pages : List Char
  page_count : Nat
  chapter_name : List Char
deriving DecidableEq, Repr

/-- The environment a split runs in: the source document's page count,
which individual `writer.add_page(reader.pages[i])` calls succeed
(`copyOk`, 0-based page index; page-copy exceptions are caught and the
page skipped), and which output writes succeed (`writeOk`, by output path;
a write exception is caught and the chapter dropped). -/
structure SplitCtx where
  numPages : Nat
  copyOk : Nat → Bool
  writeOk : List Char → Bool

/-- Decimal digits of a natural number (`"0"` for zero). -/
def natToDec (n : Nat) : List Char :=
  if n = 0 then ['0']
  else ((Nat.digits 10 n).reverse).map (fun d => Char.ofNat (48 + d))

/-- Python `str` of an integer. -/
def intToDec (n : Int) : List Char :=
  if n < 0 then '-' :: natToDec n.natAbs else natToDec n.toNat

/-- What `_split_chapter` did: the returned dictionary (`none` on any
skip), whether the output file was opened for writing, and the 0-based
indices of the pages actually added to the `PdfWriter`. -/
structure ChapterSplitTrace where
  unit : Option SplitUnit
  wroteFile : Bool
  writerPages : List Nat
deriving Repr

/-- `PDFSplitter._split_chapter`, step for step: missing page numbers,
falsy filename/folder, and invalid page ranges are skipped before any
page is copied; the page loop covers `range(start_page - 1, min(end_page,
len(reader.pages)))` keeping the pages whose copy succeeds; a chapter with
zero copied pages and a chapter with an unknown folder are dropped before
the file is opened; a failed write is dropped after. -/
def split_chapter (ctx : SplitCtx) (c : ChapterIn) : ChapterSplitTrace :=
  match c.chapter_start_page_number, c.chapter_end_page_number with
  | some startPage, some endPage =>
    if !(truthy c.pdf_filename && truthy c.pdf_folder) then ⟨none, false, []⟩
    else if startPage < 1 || endPage < startPage || startPage > (ctx.numPages : Int) then
      ⟨none, false, []⟩
    else
      let lo := (startPage - 1).toNat
      let hi := min endPage.toNat ctx.numPages
      let pagesAdded := (List.range' lo (hi - lo)).filter ctx.copyOk
      if pagesAdded.length == 0 then ⟨none, false, pagesAdded⟩
      else
        let fn := c.pdf_filename.getD []
        let fd := c.pdf_folder.getD []
        if fd == tl "question_papers" || fd == tl "answer_keys" then
          let outputPath := fd ++ '/' :: fn
          if ctx.writeOk outputPath then
            ⟨some { filename := fn, folder := fd, path := outputPath,
                    pages := intToDec startPage ++ '-' :: intToDec endPage,
                    page_count := pagesAdded.length,
                    chapter_name := c.chapter_name },
             true, pagesAdded⟩
          else ⟨none, true, pagesAdded⟩
        else ⟨none, false, pagesAdded⟩
  | _, _ => ⟨none, false, []⟩

/-- `PDFSplitter.split_pdf_by_json`, chapter loop: each chapter is split
independently; a chapter returning `None` — or raising, since the loop
body catches every exception and continues — contributes nothing. -/
def split_pdf_by_json (ctx : SplitCtx) (chapters : List ChapterIn) :
    List SplitUnit :=
  chapters.filterMap (fun c => (split_chapter ctx c).unit)

/-!  ## The AnalysisResult JSON contract

The persisted values of the contract are JSON objects, arrays, strings and
integers (the analyzer emits nothing else).  `Json` is the value level of
that subset; key order in objects follows Python's insertion order. -/

inductive Json where
  | num (n : Int)
  | str (s : List Char)
  | arr (elems : List Json)
  | obj (members : List (List Char × Json))

/-- `d.get(k)` on a JSON object (keys produced by the contract are
unique). -/
def lookupKey (members : List (List Char × Json)) (k : List Char) : Option Json :=
  (members.find? (fun kv => kv.1 == k)).map Prod.snd

/-- The dictionary built for one chapter by `_process_chapters`,
serialized: four mandatory keys, plus `pdf_filename`/`pdf_folder` exactly
when present. -/
def chapterToJson (c : ChapterOut) : Json :=
  .obj ([(tl "chapter_name", .str c.chapter_name),
         (tl "tag", .str c.tag),
         (tl "chapter_start_page_number", .num c.chapter_start_page_number),
         (tl "chapter_end_page_number", .num c.chapter_end_page_number)]
    ++ (match c.pdf_filename with
        | some f => [(tl "pdf_filename", Json.str f)]
        | none => [])
    ++ (match c.pdf_folder with
        | some f => [(tl "pdf_folder", Json.str f)]
        | none => []))

/-- The top-level result dictionary of `analyze_pdf`, serialized. -/
def analysisToJson (r : AnalysisResult) : Json :=
  .obj [(tl "confidence_score", .num r.confidence_score),
        (tl "book_title", .str r.book_title),
        (tl "book_start_page", .num r.book_start_page),
        (tl "book_end_page", .num r.book_end_page),
        (tl "chapters", .arr (r.chapters.map chapterToJson))]

/-- A string-valued `chapter.get(..)` as the splitter consumes it. -/
def jsonGetStr : Option Json → Option (List Char)
  | some (.str s) => some s
  | _ => none

/-- An integer-valued `chapter.get(..)` as the splitter consumes it. -/
def jsonGetInt : Option Json → Option Int
  | some (.num n) => some n
  | _ => none

/-- The field accesses `_split_chapter` performs on one chapter
dictionary (`chapter.get('chapter_name', 'unknown')` and the four
optional fields).  A non-object chapter would raise on `.get` and be
skipped by the loop's exception handler; it is modelled as the chapter
all of whose optional fields are missing, which is likewise skipped. -/
def chapterInOfJson : Json → ChapterIn
  | .obj members =>
    { chapter_name := (jsonGetStr (lookupKey members (tl "chapter_name"))).getD (tl "unknown")
      chapter_start_page_number := jsonGetInt (lookupKey members (tl "chapter_start_page_number"))
      chapter_end_page_number := jsonGetInt (lookupKey members (tl "chapter_end_page_number"))
      pdf_filename := jsonGetStr (lookupKey members (tl "pdf_filename"))
      pdf_folder := jsonGetStr (lookupKey members (tl "pdf_folder")) }
  | _ => { chapter_name := tl "unknown", chapter_start_page_number := none,
           chapter_end_page_number := none, pdf_filename := none, pdf_folder := none }

/-- `analysis_data.get('chapters', [])` (the contract always stores a
list there). -/
def chaptersOfJson : Json → List Json
  | .obj members =>
    match lookupKey members (tl "chapters") with
    | some (.arr elems) => elems
    | _ => []
  | _ => []

/-- `split_pdf_by_json` applied to deserialized analysis data. -/
def splitFromJsonValue (ctx : SplitCtx) (j : Json) : List SplitUnit :=
  split_pdf_by_json ctx ((chaptersOfJson j).map chapterInOfJson)

/-- The splitter's view of an in-memory analyzer chapter: the same
dictionary fields, read directly. -/
def chapterInOfOut (c : ChapterOut) : ChapterIn :=
  { chapter_name := c.chapter_name
    chapter_start_page_number := some (c.chapter_start_page_number : Int)
    chapter_end_page_number := some (c.chapter_end_page_number : Int)
    pdf_filename := c.pdf_filename
    pdf_folder := c.pdf_folder }

/-- Splitting directly from the in-memory `AnalysisResult`
(`split_pdf_by_json(pdf_path, analysis_data, output_dir)` on the dict the
analyzer returned). -/
def splitDirect (ctx : SplitCtx) (r : AnalysisResult) : List SplitUnit :=
  split_pdf_by_json ctx (r.chapters.map chapterInOfOut)

/-!  ## The textual JSON boundary

`analyze_pdf` (module-level) persists the result with
`json.dumps(result, indent=4)`; `split_pdf_from_json_file` reads it back
with `json.load`.  The printer below reproduces `json.dumps` with
`indent=4` and default separators on the contract shape (objects and
arrays of strings and integers, `ensure_ascii` escaping); the parser is a
recursive-descent reader of that JSON subset. -/

def lbrace : Char := Char.ofNat 123

def rbrace : Char := Char.ofNat 125

/-- Lowercase hexadecimal digit. -/
def hexDigitChar (n : Nat) : Char :=
  if n < 10 then Char.ofNat (48 + n) else Char.ofNat (87 + n)

/-- Four lowercase hex digits of a code unit below `0x10000`. -/
def hex4 (n : Nat) : List Char :=
  [hexDigitChar (n / 4096 % 16), hexDigitChar (n / 256 % 16),
   hexDigitChar (n / 16 % 16), hexDigitChar (n % 16)]

/-- `ensure_ascii` escaping of one character, as in
`json.encoder.py_encode_basestring_ascii`: named escapes, `\u00xx` for
other control characters, printable ASCII verbatim, `\uxxxx` (with a
surrogate pair above `0xFFFF`) for everything else. -/
def escapeChar (c : Char) : List Char :=
  if c = '"' then ['\\', '"']
  else if c = '\\' then ['\\', '\\']
  else if c = Char.ofNat 8 then ['\\', 'b']
  else if c = Char.ofNat 12 then ['\\', 'f']
  else if c = '\n' then ['\\', 'n']
  else if c = '\r' then ['\\', 'r']
  else if c = '\t' then ['\\', 't']
  else if 32 ≤ c.toNat && c.toNat ≤ 126 then [c]
  else if c.toNat < 65536 then '\\' :: 'u' :: hex4 c.toNat
  else
    let v := c.toNat - 65536
    '\\' :: 'u' :: hex4 (55296 + v / 1024) ++ '\\' :: 'u' :: hex4 (56320 + v % 1024)

/-- A JSON string literal (quotes included). -/
def strText (s : List Char) : List Char :=
  '"' :: (s.map escapeChar).flatten ++ ['"']

/-- A newline followed by `n` spaces of indentation. -/
def nlPad (n : Nat) : List Char :=
  '\n' :: List.replicate n ' '

/-- Join with a separator (`sep.join(..)` as `json.dumps` uses it). -/
def joinSep (sep : List Char) : List (List Char) → List Char
  | [] => []
  | [x] => x
  | x :: y :: xs => x ++ sep ++ joinSep sep (y :: xs)

/-- One `"key": value` member with the default `': '` separator. -/
def kvText (k : List Char) (v : List Char) : List Char :=
  strText k ++ ':' :: ' ' :: v

/-- A non-empty object at indentation `ind` with `indent=4`: members on
their own lines at `ind + 4`, closing brace at `ind`. -/
def objText (ind : Nat) (entries : List (List Char)) : List Char :=
  lbrace :: (nlPad (ind + 4) ++ joinSep (',' :: nlPad (ind + 4)) entries)
    ++ nlPad ind ++ [rbrace]

/-- `json.dumps` of one chapter dictionary (nested at indentation 8). -/
def dumps_chapter (c : ChapterOut) : List Char :=
  objText 8
    ([kvText (tl "chapter_name") (strText c.chapter_name),
      kvText (tl "tag") (strText c.tag),
      kvText (tl "chapter_start_page_number") (intToDec c.chapter_start_page_number),
      kvText (tl "chapter_end_page_number") (intToDec c.chapter_end_page_number)]
      ++ (match c.pdf_filename with
          | some f => [kvText (tl "pdf_filename") (strText f)]
          | none => [])
      ++ (match c.pdf_folder with
          | some f => [kvText (tl "pdf_folder") (strText f)]
          | none => []))

/-- `json.dumps` of the chapters array (value of a member at indentation
4; `[]` when empty). -/
def chaptersArrText (cs : List ChapterOut) : List Char :=
  match cs with
  | [] => ['[', ']']
  | _ => '[' :: (nlPad 8 ++ joinSep (',' :: nlPad 8) (cs.map dumps_chapter))
      ++ nlPad 4 ++ [']']

/-- `json.dumps(result, indent=4)` on the analyzer's result dictionary. -/
def json_dumps_analysis (r : AnalysisResult) : List Char :=
  objText 0
    [kvText (tl "confidence_score") (intToDec r.confidence_score),
     kvText (tl "book_title") (strText r.book_title),
     kvText (tl "book_start_page") (intToDec r.book_start_page),
     kvText (tl "book_end_page") (intToDec r.book_end_page),
     kvText (tl "chapters") (chaptersArrText r.chapters)]

/-!  ### The JSON reader (`json.load`) -/

/-- JSON insignificant whitespace. -/
def jsonIsWS (c : Char) : Bool :=
  c = ' ' || c = '\t' || c = '\n' || c = '\r'

def skipWS (s : List Char) : List Char :=
  s.dropWhile jsonIsWS

/-- Value of a hexadecimal digit. -/
def hexVal (c : Char) : Option Nat :=
  if '0' ≤ c && c ≤ '9' then some (c.toNat - 48)
  else if 'a' ≤ c && c ≤ 'f' then some (c.toNat - 87)
  else if 'A' ≤ c && c ≤ 'F' then some (c.toNat - 55)
  else none

/-- Value of a `\uxxxx` digit group. -/
def hex4Val (d1 d2 d3 d4 : Char) : Option Nat := do
  let a ← hexVal d1
  let b ← hexVal d2
  let c ← hexVal d3
  let d ← hexVal d4
  pure (4096 * a + 256 * b + 16 * c + d)

/-- A named one-character escape. -/
def unescapeChar (e : Char) : Option Char :=
  if e = '"' then some '"'
  else if e = '\\' then some '\\'
  else if e = '/' then some '/'
  else if e = 'b' then some (Char.ofNat 8)
  else if e = 'f' then some (Char.ofNat 12)
  else if e = 'n' then some '\n'
  else if e = 'r' then some '\r'
  else if e = 't' then some '\t'
  else none

/-- Decode one `\uxxxx` group (the backslash and `u` already consumed),
combining a surrogate pair into one scalar value.  A lone surrogate —
which the contract's writer never produces — is rejected, since a
scalar-value `Char` cannot carry it. -/
def decodeU (r2 : List Char) : Option (Char × List Char) :=
  match r2 with
  | d1 :: d2 :: d3 :: d4 :: r3 =>
    match hex4Val d1 d2 d3 d4 with
    | none => none
    | some n =>
      if 55296 ≤ n ∧ n < 56320 then
        match r3 with
        | b :: u :: e1 :: e2 :: e3 :: e4 :: r4 =>
          if b = '\\' ∧ u = 'u' then
            match hex4Val e1 e2 e3 e4 with
            | none => none
            | some m =>
              if 56320 ≤ m ∧ m < 57344 then
                some (Char.ofNat (65536 + (n - 55296) * 1024 + (m - 56320)), r4)
              else none
          else none
        | _ => none
      else if 56320 ≤ n ∧ n < 57344 then none
      else some (Char.ofNat n, r3)
  | _ => none

/-- Decode one escape sequence (the backslash already consumed): a named
escape or a `\uxxxx` group. -/
def decodeEscape (r : List Char) : Option (Char × List Char) :=
  match r with
  | [] => none
  | e :: r2 =>
    if e = 'u' then decodeU r2
    else (unescapeChar e).map (fun c' => (c', r2))

/-- String body after the opening quote: plain characters (raw control
characters are rejected, as in strict-mode `json.loads`) and escapes.
The fuel only bounds the recursion; each step consumes at least one input
character, so `length + 1` always suffices. -/
def parseStringBody : Nat → List Char → Option (List Char × List Char)
  | 0, _ => none
  | _ + 1, [] => none
  | fuel + 1, c :: r =>
    if c = '"' then some ([], r)
    else if c = '\\' then
      match decodeEscape r with
      | none => none
      | some (c', r') => (parseStringBody fuel r').map (fun p => (c' :: p.1, p.2))
    else if c.toNat < 32 then none
    else (parseStringBody fuel r).map (fun p => (c :: p.1, p.2))

/-- A string body with the always-sufficient fuel. -/
def parseStr (s : List Char) : Option (List Char × List Char) :=
  parseStringBody (s.length + 1) s

/-- Value of a non-empty digit string. -/
def decValue (ds : List Char) : Nat :=
  ds.foldl (fun a c => 10 * a + (c.toNat - 48)) 0

/-- A natural-number token (maximal digit run). -/
def parseNatTok (s : List Char) : Option (Nat × List Char) :=
  match s.takeWhile isDigit with
  | [] => none
  | ds => some (decValue ds, s.dropWhile isDigit)

/-- An integer token with optional sign. -/
def parseNumTok : List Char → Option (Int × List Char)
  | [] => none
  | c :: r =>
    if c = '-' then (parseNatTok r).map (fun p => (-(p.1 : Int), p.2))
    else (parseNatTok (c :: r)).map (fun p => ((p.1 : Int), p.2))

mutual

/-- One JSON value of the contract subset; the fuel bounds the recursion
and `s.length + 1` always suffices, since every recursive step consumes
at least one character. -/
def parseJsonF : Nat → List Char → Option (Json × List Char)
  | 0, _ => none
  | fuel + 1, s =>
    match skipWS s with
    | [] => none
    | c :: r =>
      if c = '"' then (parseStr r).map (fun p => (Json.str p.1, p.2))
      else if c = lbrace then
        match skipWS r with
        | c2 :: r2 =>
          if c2 = rbrace then some (.obj [], r2)
          else (parseObjMembers fuel (c2 :: r2)).map (fun p => (Json.obj p.1, p.2))
        | [] => none
      else if c = '[' then
        match skipWS r with
        | c2 :: r2 =>
          if c2 = ']' then some (.arr [], r2)
          else (parseArrItems fuel (c2 :: r2)).map (fun p => (Json.arr p.1, p.2))
        | [] => none
      else (parseNumTok (c :: r)).map (fun p => (Json.num p.1, p.2))

/-- Comma-separated array elements up to the closing bracket. -/
def parseArrItems : Nat → List Char → Option (List Json × List Char)
  | 0, _ => none
  | fuel + 1, s => do
    let (v, r1) ← parseJsonF fuel s
    match skipWS r1 with
    | [] => none
    | c :: r2 =>
      if c = ',' then (parseArrItems fuel r2).map (fun p => (v :: p.1, p.2))
      else if c = ']' then some ([v], r2)
      else none

/-- Comma-separated `"key": value` members up to the closing brace. -/
def parseObjMembers : Nat → List Char → Option (List (List Char × Json) × List Char)
  | 0, _ => none
  | fuel + 1, s =>
    match skipWS s with
    | [] => none
    | c0 :: r1 =>
      if c0 = '"' then do
        let (k, r2) ← parseStr r1
        match skipWS r2 with
        | [] => none
        | c1 :: r3 =>
          if c1 = ':' then do
            let (v, r4) ← parseJsonF fuel r3
            match skipWS r4 with
            | [] => none
            | c :: r5 =>
              if c = ',' then (parseObjMembers fuel r5).map (fun p => ((k, v) :: p.1, p.2))
              else if c = rbrace then some ([(k, v)], r5)
              else none
          else none
      else none

end

/-- `json.load`: one document, nothing but whitespace after it. -/
def json_loads (s : List Char) : Option Json :=
  match parseJsonF (s.length + 1) s with
  | some (j, rest) => if (skipWS rest).isEmpty then some j else none
  | none => none

/-- `PDFSplitter.split_pdf_from_json_file`: read the analysis JSON, then
split (`none` models the raised exception when the file cannot be
parsed). -/
def split_pdf_from_json_file (ctx : SplitCtx) (s : List Char) :
    Option (List SplitUnit) :=
  (json_loads s).map (splitFromJsonValue ctx)

/-- "`txt` parses to the value `j` in at most `K` units of fuel": with any
additional fuel, any whitespace prefix, and any following text whose head
cannot extend the value, the parser returns `j` and the following text. -/
def ValText (K : Nat) (txt : List Char) (j : Json) : Prop :=
  ∀ (f : Nat) (pre rest : List Char), (∀ c ∈ pre, jsonIsWS c = true) →
    (∀ c ∈ rest.head?, isDigit c = false) →
    parseJsonF (f + K) (pre ++ txt ++ rest) = some (j, rest)

/-- The token bonus as the spec states it: some detection's name contains
one of the tokens `SAP`, `SQP`, `PP`, `Practice`, `Question` compared
case-insensitively (this follows the spec's words, for comparison with the
source's `calculate_confidence_score`). -/
def claimTokenBonus (found : List Detection) : Bool :=
  found.any (fun c => specificPatterns.any (fun p => containsSub (pyUpper p) (pyUpper c.name)))

/-- The confidence formula as the spec states it, differing from the code
only in the token comparison. -/
def claim_confidence_score (found : List Detection) (totalPages : Nat) : Nat :=
  if found.isEmpty then 30
  else
    let confidence := 70
    let confidence := if 10 * found.length > totalPages then confidence + 10 else confidence
    let confidence := if claimTokenBonus found then confidence + 5 else confidence
    min confidence 95

/-- A chapter the splitter's validation rejects: missing page numbers, a
falsy filename or folder, or an out-of-range start/end. -/
def chapterFailsValidation (ctx : SplitCtx) (c : ChapterIn) : Prop :=
  c.chapter_start_page_number = none ∨ c.chapter_end_page_number = none ∨
  truthy c.pdf_filename = false ∨ truthy c.pdf_folder = false ∨
  (∃ s e, c.chapter_start_page_number = some s ∧ c.chapter_end_page_number = some e ∧
    (s < 1 ∨ e < s ∨ s > (ctx.numPages : Int)))

/-- The pages a valid chapter's loop copies: 0-based indices
`range(start_page - 1, min(end_page, numPages))`, filtered by per-page
copy success — i.e. the 1-indexed pages `startPage .. min(endPage,
numPages)` in original order, minus the pages whose copy fails. -/
def copiedPages (ctx : SplitCtx) (s e : Int) : List Nat :=
  (List.range' (s - 1).toNat (min e.toNat ctx.numPages - (s - 1).toNat)).filter ctx.copyOk

/-- The 40-page document of the end-to-end example: the stated headers on
pages 1, 11 and 21, and header text matching no pattern elsewhere. -/
def c1Headers : List (List Char) :=
  [tl "UNSOLVED Self Assessment Paper-1"] ++ List.replicate 9 [] ++
  [tl "SOLVED Sample Question Paper-2"] ++ List.replicate 9 [] ++
  [tl "SOLUTIONS Sample Question Paper-2"] ++ List.replicate 19 []

/-- The three chapters the example predicts. -/
def c1Chapters : List ChapterOut :=
  [⟨tl "UNSOLVED Self Assessment Paper-1", tl "UNSOLVED", 1, 10,
     some (tl "SAP-1.pdf"), some (tl "question_papers")⟩,
   ⟨tl "SOLVED Sample Question Paper-2", tl "SOLVED", 11, 20,
     some (tl "SQP-2.pdf"), some (tl "question_papers")⟩,
   ⟨tl "SOLUTIONS Sample Question Paper-2", tl "SOLUTIONS", 21, 40,
     some (tl "SQP-2-SOLUTION.pdf"), some (tl "answer_keys")⟩]

/-!  ## Theorems -/

/-- C2.  The code compares the literal tokens `'Practice'` and
`'Question'` against the *uppercased* chapter name, so those two tokens
can never match and the `+5` bonus is not applied for the detection
`"Question Paper-1"`: the code returns `70` where the claimed
case-insensitive comparison would give `75`. -/
theorem confidence_token_case_bug :
    calculate_confidence_score [⟨tl "Question Paper-1", 1, tl "Question"⟩] 20 = 70 ∧
    claim_confidence_score [⟨tl "Question Paper-1", 1, tl "Question"⟩] 20 = 75 := by
  constructor
  · decide
  · decide

/-- C9.  For every detection list and positive page count the confidence
score is one of `30`, `70`, `75`, `80`, `85` — in particular it never
exceeds `85`, so the `min _ 95` clamp can never take effect — and each of
the five values is attained. -/
theorem confidence_score_five_values :
    (∀ (found : List Detection) (totalPages : Nat), 0 < totalPages →
      calculate_confidence_score found totalPages = 30 ∨
      calculate_confidence_score found totalPages = 70 ∨
      calculate_confidence_score found totalPages = 75 ∨
      calculate_confidence_score found totalPages = 80 ∨
      calculate_confidence_score found totalPages = 85) ∧
    calculate_confidence_score [] 1 = 30 ∧
    calculate_confidence_score [⟨tl "Mind Map-2", 1, tl "Mind"⟩] 20 = 70 ∧
    calculate_confidence_score [⟨tl "SAP-1", 1, tl "NA"⟩] 20 = 75 ∧
    calculate_confidence_score [⟨tl "Mind Map-2", 1, tl "Mind"⟩] 5 = 80 ∧
    calculate_confidence_score [⟨tl "SAP-1", 1, tl "NA"⟩] 5 = 85 := by
  refine ⟨?_, by decide, by decide, by decide, by decide, by decide⟩
  intro found totalPages _
  unfold calculate_confidence_score
  split
  · exact Or.inl rfl
  · split <;> split <;> simp

/-- Witness for C9 at a concrete input. -/
theorem confidence_score_five_values_witness :
    0 < 1 ∧
    (calculate_confidence_score [] 1 = 30 ∨
     calculate_confidence_score [] 1 = 70 ∨
     calculate_confidence_score [] 1 = 75 ∨
     calculate_confidence_score [] 1 = 80 ∨
     calculate_confidence_score [] 1 = 85) :=
  ⟨by decide, confidence_score_five_values.1 [] 1 (by decide)⟩

/-- C4.  For a page-sorted detection list, consecutive resolved chapters
either abut (`endPage = next startPage - 1`) or collide on one page
(`endPage = startPage = next startPage`), and the final chapter always
ends at the total page count. -/
theorem process_chapters_ranges (found : List Detection) (totalPages : Nat)
    (hsorted : List.Chain' (fun a b => a.page ≤ b.page) found) :
    List.Chain'
      (fun a b =>
        a.chapter_end_page_number = b.chapter_start_page_number - 1 ∨
        (a.chapter_end_page_number = a.chapter_start_page_number ∧
         a.chapter_start_page_number = b.chapter_start_page_number))
      (process_chapters found totalPages) ∧
    (∀ c ∈ (process_chapters found totalPages).getLast?,
      c.chapter_end_page_number = totalPages) := by
  induction found with
  | nil => simp [process_chapters]
  | cons c rest ih =>
    cases rest with
    | nil =>
      simp [process_chapters, mkChapterOut]
    | cons c' rest' =>
      have h1 : c.page ≤ c'.page := (List.chain'_cons.mp hsorted).1
      have ih' := ih (List.chain'_cons.mp hsorted).2
      constructor
      · rw [process_chapters]
        have hhd :
            ∀ x ∈ (process_chapters (c' :: rest') totalPages).head?,
              x.chapter_start_page_number = c'.page := by
          cases rest' <;> simp [process_chapters, mkChapterOut]
        refine List.chain'_cons'.mpr ⟨?_, ih'.1⟩
        intro y hy
        have hy' := hhd y hy
        by_cases h : c'.page == c.page
        · right
          have heq : c'.page = c.page := by simpa using h
          simp [mkChapterOut, h, hy', heq]
        · left
          simp [mkChapterOut, h, hy']
      · intro x hx
        rw [process_chapters] at hx
        cases rest' with
        | nil =>
          simp only [process_chapters, List.getLast?_cons_cons,
            List.getLast?_singleton, Option.mem_def, Option.some.injEq] at hx
          rw [← hx]
          simp [mkChapterOut]
        | cons c'' rest'' =>
          rw [show process_chapters (c' :: c'' :: rest'') totalPages =
                (let endPage := if c''.page == c'.page then c'.page else c''.page - 1
                 mkChapterOut c' endPage) :: process_chapters (c'' :: rest'') totalPages
              from rfl, List.getLast?_cons_cons] at hx
          exact ih'.2 x (by rw [process_chapters]; exact hx)

/-- Witness for C4 at a concrete sorted detection list. -/
theorem process_chapters_ranges_witness :
    List.Chain'
      (fun a b =>
        a.chapter_end_page_number = b.chapter_start_page_number - 1 ∨
        (a.chapter_end_page_number = a.chapter_start_page_number ∧
         a.chapter_start_page_number = b.chapter_start_page_number))
      (process_chapters [⟨tl "A", 1, tl "A"⟩, ⟨tl "B", 3, tl "B"⟩, ⟨tl "C", 3, tl "C"⟩] 9) ∧
    (∀ c ∈ (process_chapters [⟨tl "A", 1, tl "A"⟩, ⟨tl "B", 3, tl "B"⟩, ⟨tl "C", 3, tl "C"⟩] 9).getLast?,
      c.chapter_end_page_number = 9) :=
  process_chapters_ranges _ 9 (by simp)

/-- C6.  A chapter that fails validation (or lacks a filename or folder)
is skipped — no pages copied, no file written, no `SplitUnit` — and the
other chapters of the batch are split exactly as if it were absent (the
splitter is a total function of the chapter list; nothing propagates out
of a bad chapter). -/
theorem split_skips_invalid_chapter (ctx : SplitCtx) (c : ChapterIn)
    (pre post : List ChapterIn) (h : chapterFailsValidation ctx c) :
    split_chapter ctx c = ⟨none, false, []⟩ ∧
    split_pdf_by_json ctx (pre ++ c :: post) =
      split_pdf_by_json ctx pre ++ split_pdf_by_json ctx post := by
  have hskip : split_chapter ctx c = ⟨none, false, []⟩ := by
    rcases hS : c.chapter_start_page_number with _ | s <;>
      rcases hE : c.chapter_end_page_number with _ | e
    · unfold split_chapter; rw [hS, hE]
    · unfold split_chapter; rw [hS, hE]
    · unfold split_chapter; rw [hS, hE]
    · rcases h with h | h | h | h | ⟨s', e', hs', he', hrange⟩
      · exact absurd hS (h ▸ fun hc => Option.noConfusion hc)
      · exact absurd hE (h ▸ fun hc => Option.noConfusion hc)
      · unfold split_chapter; rw [hS, hE]; simp [h]
      · unfold split_chapter; rw [hS, hE]; simp [h]
      · rw [hS] at hs'; rw [hE] at he'
        obtain rfl : s = s' := by injection hs'
        obtain rfl : e = e' := by injection he'
        unfold split_chapter; rw [hS, hE]
        by_cases hf : truthy c.pdf_filename && truthy c.pdf_folder
        · have hcond :
              (decide (s < 1) || decide (e < s) || decide (s > (ctx.numPages : Int))) = true := by
            rcases hrange with h1 | h1 | h1 <;> simp [h1]
          simp [hf, hcond]
        · simp [hf]
  refine ⟨hskip, ?_⟩
  simp [split_pdf_by_json, List.filterMap_append, List.filterMap_cons, hskip]

/-- Witness for C6: an invalid chapter (start page beyond the document)
among two valid ones is dropped while both others are split. -/
theorem split_skips_invalid_chapter_witness :
    split_chapter ⟨3, fun _ => true, fun _ => true⟩
        ⟨tl "bad", some 5, some 7, some (tl "f.pdf"), some (tl "question_papers")⟩ =
      ⟨none, false, []⟩ ∧
    split_pdf_by_json ⟨3, fun _ => true, fun _ => true⟩
        ([⟨tl "a", some 1, some 1, some (tl "a.pdf"), some (tl "question_papers")⟩] ++
          ⟨tl "bad", some 5, some 7, some (tl "f.pdf"), some (tl "question_papers")⟩ ::
          [⟨tl "b", some 2, some 3, some (tl "b.pdf"), some (tl "answer_keys")⟩]) =
      split_pdf_by_json ⟨3, fun _ => true, fun _ => true⟩
          [⟨tl "a", some 1, some 1, some (tl "a.pdf"), some (tl "question_papers")⟩] ++
        split_pdf_by_json ⟨3, fun _ => true, fun _ => true⟩
          [⟨tl "b", some 2, some 3, some (tl "b.pdf"), some (tl "answer_keys")⟩] :=
  split_skips_invalid_chapter _ _ _ _
    (Or.inr (Or.inr (Or.inr (Or.inr ⟨5, 7, rfl, rfl, Or.inr (Or.inr (by decide))⟩))))

/-- C7.  For a chapter that passes validation and has a filename and
folder: the writer receives exactly the pages of
`range(startPage-1, min(endPage, totalPages))` whose copy succeeds, in
original order; any emitted `SplitUnit` reports `page_count` as the
number actually copied; and when zero pages are copied the chapter
produces no `SplitUnit` and no output file. -/
theorem split_chapter_copied_pages (ctx : SplitCtx) (c : ChapterIn) (s e : Int)
    (hs : c.chapter_start_page_number = some s)
    (he : c.chapter_end_page_number = some e)
    (hfn : truthy c.pdf_filename = true) (hfd : truthy c.pdf_folder = true)
    (h1 : 1 ≤ s) (h2 : s ≤ e) (h3 : s ≤ (ctx.numPages : Int)) :
    (split_chapter ctx c).writerPages = copiedPages ctx s e ∧
    (copiedPages ctx s e = [] → split_chapter ctx c = ⟨none, false, []⟩) ∧
    (∀ u ∈ (split_chapter ctx c).unit, u.page_count = (copiedPages ctx s e).length) := by
  have hn : (decide (s < 1) || decide (e < s) || decide (s > (ctx.numPages : Int))) = false := by
    have hn1 : ¬ (s < 1) := by omega
    have hn2 : ¬ (e < s) := by omega
    have hn3 : ¬ (s > (ctx.numPages : Int)) := by omega
    simp [hn1, hn2, hn3]
  unfold split_chapter
  rw [hs, he, hfn, hfd]
  dsimp only
  rw [if_neg (by simp)]
  rw [hn, if_neg Bool.false_ne_true]
  by_cases hz :
      (((List.range' (s - 1).toNat (min e.toNat ctx.numPages - (s - 1).toNat)).filter
        ctx.copyOk).length == 0) = true
  · rw [if_pos hz]
    have hnil : (List.range' (s - 1).toNat (min e.toNat ctx.numPages - (s - 1).toNat)).filter
        ctx.copyOk = [] := by
      rw [← List.length_eq_zero]
      simpa using hz
    refine ⟨?_, fun _ => ?_, by simp⟩
    · show _ = copiedPages ctx s e
      rw [copiedPages, hnil]
    · show ChapterSplitTrace.mk none false _ = ChapterSplitTrace.mk none false []
      rw [hnil]
  · rw [if_neg hz]
    have hcp : copiedPages ctx s e =
        (List.range' (s - 1).toNat (min e.toNat ctx.numPages - (s - 1).toNat)).filter
          ctx.copyOk := rfl
    have hne : copiedPages ctx s e ≠ [] := by
      intro hc
      rw [hcp] at hc
      rw [hc] at hz
      exact hz (by decide)
    refine ⟨?_, fun hc => absurd hc hne, ?_⟩
    · split
      · split <;> exact hcp.symm
      · exact hcp.symm
    · intro u hu
      split at hu
      · split at hu
        · simp only [Option.mem_def, Option.some.injEq] at hu
          rw [← hu, hcp]
        · simp at hu
      · simp at hu

/-- Witness for C7: a chapter covering pages 2–5 of a 4-page document
with page index 2 failing to copy yields writer pages `[1, 3]`. -/
theorem split_chapter_copied_pages_witness :
    (split_chapter ⟨4, fun p => p ≠ 2, fun _ => true⟩
        ⟨tl "w", some 2, some 5, some (tl "w.pdf"), some (tl "answer_keys")⟩).writerPages =
      copiedPages ⟨4, fun p => p ≠ 2, fun _ => true⟩ 2 5 ∧
    (copiedPages ⟨4, fun p => p ≠ 2, fun _ => true⟩ 2 5 = [] →
      split_chapter ⟨4, fun p => p ≠ 2, fun _ => true⟩
        ⟨tl "w", some 2, some 5, some (tl "w.pdf"), some (tl "answer_keys")⟩ = ⟨none, false, []⟩) ∧
    (∀ u ∈ (split_chapter ⟨4, fun p => p ≠ 2, fun _ => true⟩
        ⟨tl "w", some 2, some 5, some (tl "w.pdf"), some (tl "answer_keys")⟩).unit,
      u.page_count = (copiedPages ⟨4, fun p => p ≠ 2, fun _ => true⟩ 2 5).length) :=
  split_chapter_copied_pages _ _ 2 5 rfl rfl rfl rfl (by decide) (by decide) (by decide)

/-- C10.  A chapter whose `pdf_folder` is a non-empty string other than
`question_papers` or `answer_keys` never produces a `SplitUnit` and never
reaches the file write, whatever its page range and page copies did. -/
theorem split_chapter_unknown_folder (ctx : SplitCtx) (c : ChapterIn) (f : List Char)
    (hfd : c.pdf_folder = some f) (_hne : f ≠ [])
    (hq : f ≠ tl "question_papers") (ha : f ≠ tl "answer_keys") :
    (split_chapter ctx c).unit = none ∧ (split_chapter ctx c).wroteFile = false := by
  rcases hS : c.chapter_start_page_number with _ | s <;>
    rcases hE : c.chapter_end_page_number with _ | e
  · unfold split_chapter; rw [hS, hE]; exact ⟨rfl, rfl⟩
  · unfold split_chapter; rw [hS, hE]; exact ⟨rfl, rfl⟩
  · unfold split_chapter; rw [hS, hE]; exact ⟨rfl, rfl⟩
  · unfold split_chapter; rw [hS, hE]
    by_cases hf : truthy c.pdf_filename && truthy c.pdf_folder
    · simp only [hf, Bool.not_true, Bool.false_eq_true, if_false]
      split
      · exact ⟨rfl, rfl⟩
      · split
        · exact ⟨rfl, rfl⟩
        · have hget : c.pdf_folder.getD [] = f := by rw [hfd]; rfl
          have hq' : (f == tl "question_papers") = false := by
            simpa using hq
          have ha' : (f == tl "answer_keys") = false := by
            simpa using ha
          simp [hget, hq', ha']
    · simp [hf]

/-- Witness for C10 at a concrete chapter with folder `"misc"`. -/
theorem split_chapter_unknown_folder_witness :
    (split_chapter ⟨6, fun _ => true, fun _ => true⟩
        ⟨tl "m", some 1, some 6, some (tl "m.pdf"), some (tl "misc")⟩).unit = none ∧
    (split_chapter ⟨6, fun _ => true, fun _ => true⟩
        ⟨tl "m", some 1, some 6, some (tl "m.pdf"), some (tl "misc")⟩).wroteFile = false :=
  split_chapter_unknown_folder _ _ (tl "misc") rfl (by decide) (by decide) (by decide)

/-- C5.  `_determine_filename_and_folder` follows its rule table, reading
the rows in order: Self-Assessment + UNSOLVED gives `SAP-N.pdf`;
otherwise Practice + UNSOLVED gives `PP-N.pdf`; otherwise a Question
Paper match gives `SQP-N.pdf` for SOLVED/UNSOLVED and
`SQP-N-SOLUTION.pdf` under `answer_keys` for SOLUTIONS; any other input —
including `("Mind Map-2", "NA")` — yields no filename and no folder. -/
theorem determine_filename_rule_table :
    (∀ name tag n, searchSA name = some n → tag = tl "UNSOLVED" →
      determine_filename_and_folder name tag =
        (some (tl "SAP-" ++ n ++ tl ".pdf"), some (tl "question_papers"))) ∧
    (∀ name tag n, searchSA name = none → searchPractice name = some n →
      tag = tl "UNSOLVED" →
      determine_filename_and_folder name tag =
        (some (tl "PP-" ++ n ++ tl ".pdf"), some (tl "question_papers"))) ∧
    (∀ name tag n, searchQuestion name = some n →
      (tag = tl "SOLVED" →
        determine_filename_and_folder name tag =
          (some (tl "SQP-" ++ n ++ tl ".pdf"), some (tl "question_papers"))) ∧
      (tag = tl "SOLUTIONS" →
        determine_filename_and_folder name tag =
          (some (tl "SQP-" ++ n ++ tl "-SOLUTION.pdf"), some (tl "answer_keys"))) ∧
      (tag = tl "UNSOLVED" → searchSA name = none → searchPractice name = none →
        determine_filename_and_folder name tag =
          (some (tl "SQP-" ++ n ++ tl ".pdf"), some (tl "question_papers")))) ∧
    (∀ name tag,
      ((searchSA name = none ∧ searchPractice name = none) ∨ tag ≠ tl "UNSOLVED") →
      (searchQuestion name = none ∨
        (tag ≠ tl "SOLVED" ∧ tag ≠ tl "SOLUTIONS" ∧ tag ≠ tl "UNSOLVED")) →
      determine_filename_and_folder name tag = (none, none)) ∧
    determine_filename_and_folder (tl "Practice Paper-5") (tl "UNSOLVED") =
      (some (tl "PP-5.pdf"), some (tl "question_papers")) ∧
    determine_filename_and_folder (tl "Question Paper-7") (tl "SOLUTIONS") =
      (some (tl "SQP-7-SOLUTION.pdf"), some (tl "answer_keys")) ∧
    determine_filename_and_folder (tl "Mind Map-2") (tl "NA") = (none, none) := by
  refine ⟨?_, ?_, ?_, ?_, by decide, by decide, by decide⟩
  · intro name tag n hsa htag
    unfold determine_filename_and_folder
    simp [hsa, htag]
  · intro name tag n hsa hpr htag
    unfold determine_filename_and_folder
    simp [hsa, hpr, htag]
  · intro name tag n hqu
    refine ⟨?_, ?_, ?_⟩
    · intro htag
      unfold determine_filename_and_folder
      simp [hqu, htag, tl]
    · intro htag
      unfold determine_filename_and_folder
      simp [hqu, htag, tl]
    · intro htag hsa hpr
      unfold determine_filename_and_folder
      simp [hqu, hsa, hpr, htag, tl]
  · intro name tag hfirst hsecond
    unfold determine_filename_and_folder
    rcases hsecond with hqu | ⟨ht1, ht2, ht3⟩
    · rcases hfirst with ⟨hsa, hpr⟩ | htag
      · simp [hsa, hpr, hqu]
      · have htag' : (tag == tl "UNSOLVED") = false := by simpa using htag
        simp [hqu, htag']
    · have ht1' : (tag == tl "SOLVED") = false := by simpa using ht1
      have ht2' : (tag == tl "SOLUTIONS") = false := by simpa using ht2
      have ht3' : (tag == tl "UNSOLVED") = false := by simpa using ht3
      cases hqu : searchQuestion name <;> simp [ht1', ht2', ht3']

/-- Witness for C5 applying the first table row at a concrete input. -/
theorem determine_filename_rule_table_witness :
    determine_filename_and_folder (tl "Self Assessment Paper-3") (tl "UNSOLVED") =
      (some (tl "SAP-" ++ tl "3" ++ tl ".pdf"), some (tl "question_papers")) :=
  determine_filename_rule_table.1 (tl "Self Assessment Paper-3") (tl "UNSOLVED")
    (tl "3") (by decide) rfl

/-!  ### Best-match selection (C3) -/

lemma insertDescSpec_ne_nil (x : List Char × Nat) (l : List (List Char × Nat)) :
    insertDescSpec x l ≠ [] := by
  cases l with
  | nil => simp [insertDescSpec]
  | cons y ys => unfold insertDescSpec; split <;> simp

lemma sortDescSpec_eq_nil {l : List (List Char × Nat)} (h : sortDescSpec l = []) :
    l = [] := by
  cases l with
  | nil => rfl
  | cons x xs => exact absurd h (insertDescSpec_ne_nil x (sortDescSpec xs))

/-- The head of the stable descending sort is the first element of the
original list attaining the maximal specificity. -/
lemma sortDescSpec_head_first_max (l : List (List Char × Nat)) (m : List Char × Nat)
    (hm : (sortDescSpec l).head? = some m) :
    (∃ pre suf, l = pre ++ m :: suf ∧ ∀ y ∈ pre, y.2 < m.2) ∧
    ∀ y ∈ l, y.2 ≤ m.2 := by
  induction l generalizing m with
  | nil => simp [sortDescSpec] at hm
  | cons x xs ih =>
    have hfold : sortDescSpec (x :: xs) = insertDescSpec x (sortDescSpec xs) := rfl
    cases hs : sortDescSpec xs with
    | nil =>
      have hxs : xs = [] := sortDescSpec_eq_nil hs
      rw [hfold, hs] at hm
      simp [insertDescSpec] at hm
      subst hm
      exact ⟨⟨[], [], by simp [hxs], by simp⟩, by simp [hxs]⟩
    | cons y ys =>
      have ihy := ih y (by rw [hs]; rfl)
      rw [hfold, hs] at hm
      unfold insertDescSpec at hm
      by_cases hxy : y.2 ≤ x.2
      · rw [if_pos hxy] at hm
        simp at hm
        subst hm
        refine ⟨⟨[], xs, rfl, by simp⟩, ?_⟩
        intro z hz
        rcases List.mem_cons.mp hz with rfl | hz
        · exact le_refl _
        · exact le_trans (ihy.2 z hz) hxy
      · rw [if_neg hxy] at hm
        simp at hm
        subst hm
        obtain ⟨⟨pre', suf', hxs, hpre⟩, hall⟩ := ihy
        refine ⟨⟨x :: pre', suf', by rw [hxs]; rfl, ?_⟩, ?_⟩
        · intro z hz
          rcases List.mem_cons.mp hz with rfl | hz
          · omega
          · exact hpre z hz
        · intro z hz
          rcases List.mem_cons.mp hz with rfl | hz
          · omega
          · exact hall z hz

/-- C3 counterexample.  For the header `"Chapter 3\nSelf Assessment
Paper-3"` — which contains both a generic `Chapter 3` line and a `Self
Assessment Paper-3` line — the selected chapter name is the generic
pattern's match (whose `.*` tail crosses the newline), not the Self
Assessment Paper name; and for `"SQP - 1234567\nChapter 4:      "` the
generic pattern's raw matched substring has 16 characters, more than the
13 of the SQP match, yet the SQP match is selected because specificity is
the length of the *stripped* matched text (10 after stripping). -/
theorem best_match_counterexample :
    bestMatch (tl "Chapter 3\nSelf Assessment Paper-3") =
      some (tl "Chapter 3 Self Assessment Paper-3", 33) ∧
    tl "Chapter 3 Self Assessment Paper-3" ≠ tl "Self Assessment Paper-3" ∧
    reFinditer (tryPat pat11) (tl "SQP - 1234567\nChapter 4:      ") =
      [tl "Chapter 4:      "] ∧
    (tl "Chapter 4:      ").length = 16 ∧
    bestMatch (tl "SQP - 1234567\nChapter 4:      ") =
      some (tl "SQP - 1234567", 13) := by
  exact ⟨by decide, by decide, by decide, by decide, by decide⟩

/-- C3 amended.  The detector selects the match whose *stripped* text
(newlines replaced by spaces) is longest, ties broken by the collection
order — pattern list order first, then text order — and for a header in
which the `Self Assessment Paper-3` line precedes the generic `Chapter 3`
line, the Self Assessment Paper name is selected. -/
theorem best_match_longest_stripped :
    (∀ text m, bestMatch text = some m →
      (∃ pre suf, match_patterns text = pre ++ m :: suf ∧ ∀ y ∈ pre, y.2 < m.2) ∧
      ∀ y ∈ match_patterns text, y.2 ≤ m.2) ∧
    bestMatch (tl "Self Assessment Paper-3\nChapter 3") =
      some (tl "Self Assessment Paper-3", 23) :=
  ⟨fun _ m hm => sortDescSpec_head_first_max _ m hm, by decide⟩

/-- Witness for C3's amended theorem at a concrete header. -/
theorem best_match_longest_stripped_witness :
    (∃ pre suf,
      match_patterns (tl "Self Assessment Paper-3\nChapter 3") =
        pre ++ (tl "Self Assessment Paper-3", 23) :: suf ∧ ∀ y ∈ pre, y.2 < 23) ∧
    ∀ y ∈ match_patterns (tl "Self Assessment Paper-3\nChapter 3"), y.2 ≤ 23 :=
  best_match_longest_stripped.1 _ _ (by decide)

/-!  ### The end-to-end example (C1) -/

/-- C1 counterexample.  On the example document the analyzer produces
exactly the three stated chapters, but its confidence score is `70`
(3/40 ≤ 0.1 forfeits the density bonus, and no detection name contains
`SAP`, `SQP` or `PP` uppercased, so the token bonus — whose `Practice`
and `Question` entries cannot match an uppercased name — is also
forfeited), refuting `confidence_score ≥ 80`. -/
theorem analyze_pdf_example_confidence_low :
    (analyze_pdf (tl "Sample Book") c1Headers).chapters = c1Chapters ∧
    (analyze_pdf (tl "Sample Book") c1Headers).confidence_score = 70 ∧
    ¬ (80 ≤ (analyze_pdf (tl "Sample Book") c1Headers).confidence_score) := by
  refine ⟨by decide, by decide, ?_⟩
  intro h
  rw [show (analyze_pdf (tl "Sample Book") c1Headers).confidence_score = 70 by decide] at h
  omega

/-- C1 amended.  The example document analyzes to the three stated
chapters with a 40-page book range and a confidence score of exactly
`70`. -/
theorem analyze_pdf_example :
    analyze_pdf (tl "Sample Book") c1Headers =
      { confidence_score := 70, book_title := tl "Sample Book",
        book_start_page := 1, book_end_page := 40, chapters := c1Chapters } := by
  decide

/-!  ### The textual round trip (C8)

The dumped text parses back, member by member, to the value-level
serialization.  The development follows the printer's shape: whitespace
lemmas, one lemma per character escape, string and number tokens, then
object members, array items and the top-level document. -/

lemma skipWS_cons_not_ws {c : Char} (s : List Char) (h : jsonIsWS c = false) :
    skipWS (c :: s) = c :: s := by
  simp [skipWS, h]

lemma skipWS_append_ws (pre s : List Char) (h : ∀ c ∈ pre, jsonIsWS c = true) :
    skipWS (pre ++ s) = skipWS s := by
  induction pre with
  | nil => rfl
  | cons c cs ih =>
    have hc := h c (by simp)
    simp only [List.cons_append, skipWS, List.dropWhile_cons, hc, if_true]
    exact ih fun x hx => h x (by simp [hx])

lemma skipWS_nlPad (n : Nat) (s : List Char) : skipWS (nlPad n ++ s) = skipWS s := by
  refine skipWS_append_ws _ _ ?_
  intro c hc
  rcases List.mem_cons.mp hc with rfl | hc
  · rfl
  · rw [List.eq_of_mem_replicate hc]; rfl

lemma char_not_surrogate (c : Char) : ¬ (55296 ≤ c.toNat ∧ c.toNat < 57344) := by
  have h := c.valid
  simp only [Char.toNat]
  rcases h with h | h
  · have : c.val.toNat < 55296 := h
    omega
  · have : 57343 < c.val.toNat := h.1
    omega

lemma char_toNat_lt (c : Char) : c.toNat < 1114112 := by
  have h := c.valid
  simp only [Char.toNat]
  rcases h with h | h
  · have : c.val.toNat < 55296 := h
    omega
  · exact h.2

lemma char_toNat_valid {n : Nat} (h : n.isValidChar) : (Char.ofNat n).toNat = n := by
  simp only [Char.ofNat, h, dif_pos, Char.toNat, Char.ofNatAux]
  rfl

lemma hexVal_hexDigitChar {d : Nat} (h : d < 16) : hexVal (hexDigitChar d) = some d := by
  interval_cases d <;> decide

lemma hex4Val_hex4 {n : Nat} (h : n < 65536) :
    hex4Val (hexDigitChar (n / 4096 % 16)) (hexDigitChar (n / 256 % 16))
      (hexDigitChar (n / 16 % 16)) (hexDigitChar (n % 16)) = some n := by
  rw [hex4Val, hexVal_hexDigitChar (Nat.mod_lt _ (by omega)),
    hexVal_hexDigitChar (Nat.mod_lt _ (by omega)),
    hexVal_hexDigitChar (Nat.mod_lt _ (by omega)),
    hexVal_hexDigitChar (Nat.mod_lt _ (by omega))]
  show some _ = some n
  congr 1
  omega

lemma decodeEscape_named (e c' : Char) (tail : List Char)
    (he : ¬ e = 'u') (hu : unescapeChar e = some c') :
    decodeEscape (e :: tail) = some (c', tail) := by
  unfold decodeEscape
  dsimp only
  rw [if_neg he, hu]
  rfl

lemma decodeU_basic {n : Nat} (tail : List Char) (h : n < 65536)
    (hs1 : ¬ (55296 ≤ n ∧ n < 56320)) (hs2 : ¬ (56320 ≤ n ∧ n < 57344)) :
    decodeU (hex4 n ++ tail) = some (Char.ofNat n, tail) := by
  unfold decodeU
  simp only [hex4, List.cons_append, List.nil_append]
  rw [hex4Val_hex4 h]
  dsimp only
  rw [if_neg hs1, if_neg hs2]

lemma decodeU_surrogate {v : Nat} (tail : List Char) (h : v < 1048576) :
    decodeU (hex4 (55296 + v / 1024) ++
      '\\' :: 'u' :: (hex4 (56320 + v % 1024) ++ tail)) =
      some (Char.ofNat (65536 + v), tail) := by
  have hdiv : v / 1024 < 1024 := by omega
  have hmod : v % 1024 < 1024 := Nat.mod_lt _ (by omega)
  unfold decodeU
  simp only [hex4, List.cons_append, List.nil_append]
  rw [hex4Val_hex4 (by omega)]
  dsimp only
  rw [if_pos (by omega)]
  rw [if_pos ⟨trivial, trivial⟩]
  rw [hex4Val_hex4 (by omega)]
  dsimp only
  rw [if_pos (by omega)]
  rw [show 65536 + (55296 + v / 1024 - 55296) * 1024 + (56320 + v % 1024 - 56320) =
    65536 + v from by omega]

lemma parseStringBody_backslash (g : Nat) (r r' : List Char) (c' : Char)
    (hdec : decodeEscape r = some (c', r')) :
    parseStringBody (g + 1) ('\\' :: r) =
      (parseStringBody g r').map (fun p => (c' :: p.1, p.2)) := by
  simp only [parseStringBody, if_true]
  rw [if_neg (by decide), hdec]

lemma parseStringBody_plain (g : Nat) (c : Char) (tail : List Char)
    (h1 : ¬ c = '"') (h2 : ¬ c = '\\') (h3 : ¬ c.toNat < 32) :
    parseStringBody (g + 1) (c :: tail) =
      (parseStringBody g tail).map (fun p => (c :: p.1, p.2)) := by
  simp only [parseStringBody]
  rw [if_neg h1, if_neg h2, if_neg h3]

lemma decodeEscape_u (r2 : List Char) : decodeEscape ('u' :: r2) = decodeU r2 := by
  unfold decodeEscape
  dsimp only
  rw [if_pos rfl]

lemma parseStringBody_escapeChar (c : Char) (g : Nat) (tail : List Char) :
    parseStringBody (g + 1) (escapeChar c ++ tail) =
      (parseStringBody g tail).map (fun p => (c :: p.1, p.2)) := by
  by_cases h1 : c = '"'
  · subst h1
    rw [show escapeChar '"' = ['\\', '"'] from by decide]
    exact parseStringBody_backslash g _ _ _
      (decodeEscape_named '"' '"' _ (by decide) (by decide))
  by_cases h2 : c = '\\'
  · subst h2
    rw [show escapeChar '\\' = ['\\', '\\'] from by decide]
    exact parseStringBody_backslash g _ _ _
      (decodeEscape_named '\\' '\\' _ (by decide) (by decide))
  by_cases h3 : c = Char.ofNat 8
  · subst h3
    rw [show escapeChar (Char.ofNat 8) = ['\\', 'b'] from by decide]
    exact parseStringBody_backslash g _ _ _
      (decodeEscape_named 'b' (Char.ofNat 8) _ (by decide) (by decide))
  by_cases h4 : c = Char.ofNat 12
  · subst h4
    rw [show escapeChar (Char.ofNat 12) = ['\\', 'f'] from by decide]
    exact parseStringBody_backslash g _ _ _
      (decodeEscape_named 'f' (Char.ofNat 12) _ (by decide) (by decide))
  by_cases h5 : c = '\n'
  · subst h5
    rw [show escapeChar '\n' = ['\\', 'n'] from by decide]
    exact parseStringBody_backslash g _ _ _
      (decodeEscape_named 'n' '\n' _ (by decide) (by decide))
  by_cases h6 : c = '\r'
  · subst h6
    rw [show escapeChar '\r' = ['\\', 'r'] from by decide]
    exact parseStringBody_backslash g _ _ _
      (decodeEscape_named 'r' '\r' _ (by decide) (by decide))
  by_cases h7 : c = '\t'
  · subst h7
    rw [show escapeChar '\t' = ['\\', 't'] from by decide]
    exact parseStringBody_backslash g _ _ _
      (decodeEscape_named 't' '\t' _ (by decide) (by decide))
  by_cases h8 : 32 ≤ c.toNat ∧ c.toNat ≤ 126
  · have hesc : escapeChar c = [c] := by
      unfold escapeChar
      rw [if_neg h1, if_neg h2, if_neg h3, if_neg h4, if_neg h5, if_neg h6, if_neg h7,
        if_pos (by simp [h8.1, h8.2])]
    rw [hesc, List.cons_append, List.nil_append]
    exact parseStringBody_plain g c tail h1 h2 (by omega)
  by_cases h9 : c.toNat < 65536
  · have hesc : escapeChar c = '\\' :: 'u' :: hex4 c.toNat := by
      unfold escapeChar
      rw [if_neg h1, if_neg h2, if_neg h3, if_neg h4, if_neg h5, if_neg h6, if_neg h7,
        if_neg (by simpa using h8), if_pos (by simpa using h9)]
    rw [hesc]
    have hsur := char_not_surrogate c
    have hdec : decodeEscape ('u' :: (hex4 c.toNat ++ tail)) = some (c, tail) := by
      rw [decodeEscape_u, decodeU_basic _ h9 (by omega) (by omega), Char.ofNat_toNat]
    rw [List.cons_append, List.cons_append]
    exact parseStringBody_backslash g _ _ _ hdec
  · have hval : c.toNat < 1114112 := char_toNat_lt c
    have hesc : escapeChar c =
        '\\' :: 'u' :: hex4 (55296 + (c.toNat - 65536) / 1024) ++
          '\\' :: 'u' :: hex4 (56320 + (c.toNat - 65536) % 1024) := by
      unfold escapeChar
      rw [if_neg h1, if_neg h2, if_neg h3, if_neg h4, if_neg h5, if_neg h6, if_neg h7,
        if_neg (by simpa using h8), if_neg (by simpa using h9)]
    rw [hesc]
    have hdec : decodeEscape ('u' :: (hex4 (55296 + (c.toNat - 65536) / 1024) ++
        ('\\' :: 'u' :: (hex4 (56320 + (c.toNat - 65536) % 1024) ++ tail)))) =
        some (c, tail) := by
      rw [decodeEscape_u, decodeU_surrogate _ (by omega)]
      rw [show 65536 + (c.toNat - 65536) = c.toNat from by omega, Char.ofNat_toNat]
    simp only [List.cons_append, List.append_assoc, List.nil_append]
    exact parseStringBody_backslash g _ _ _ hdec


lemma parseStringBody_strText (s rest : List Char) (g : Nat) :
    parseStringBody (g + (s.length + 1)) ((s.map escapeChar).flatten ++ '"' :: rest) =
      some (s, rest) := by
  induction s generalizing g with
  | nil =>
    simp only [List.map_nil, List.flatten_nil, List.nil_append, List.length_nil]
    simp only [parseStringBody, if_true]
  | cons c cs ih =>
    simp only [List.map_cons, List.flatten_cons, List.append_assoc, List.length_cons]
    rw [show g + (cs.length + 1 + 1) = (g + (cs.length + 1)) + 1 from by omega]
    rw [parseStringBody_escapeChar, ih]
    rfl

lemma length_le_flatten_escape (s : List Char) :
    s.length ≤ ((s.map escapeChar).flatten).length := by
  induction s with
  | nil => simp
  | cons c cs ih =>
    simp only [List.map_cons, List.flatten_cons, List.length_append, List.length_cons]
    have h1 : 1 ≤ (escapeChar c).length := by
      unfold escapeChar
      repeat' split
      all_goals simp [hex4]
    omega

lemma parseStr_strText (s rest : List Char) :
    parseStr ((s.map escapeChar).flatten ++ '"' :: rest) = some (s, rest) := by
  unfold parseStr
  have hlen := length_le_flatten_escape s
  rw [show ((s.map escapeChar).flatten ++ '"' :: rest).length + 1 =
      (((s.map escapeChar).flatten ++ '"' :: rest).length - s.length) + (s.length + 1) from by
    simp only [List.length_append, List.length_cons]
    omega]
  exact parseStringBody_strText s rest _

lemma isDigit_digitChar {d : Nat} (h : d < 10) : isDigit (Char.ofNat (48 + d)) = true := by
  interval_cases d <;> decide

lemma natToDec_all_digits (n : Nat) : ∀ x ∈ natToDec n, isDigit x = true := by
  intro x hx
  unfold natToDec at hx
  split at hx
  · rcases List.mem_singleton.mp hx with rfl
    decide
  · rcases List.mem_map.mp hx with ⟨d, hd, rfl⟩
    have hd10 : d < 10 :=
      Nat.digits_lt_base (by omega) (List.mem_reverse.mp hd)
    exact isDigit_digitChar hd10

lemma natToDec_ne_nil (n : Nat) : natToDec n ≠ [] := by
  unfold natToDec
  split
  · simp
  · simp only [ne_eq, List.map_eq_nil_iff, List.reverse_eq_nil_iff]
    exact Nat.digits_ne_nil_iff_ne_zero.mpr (by omega)

lemma foldr_ofDigits (l : List Nat) :
    List.foldr (fun d a => 10 * a + d) 0 l = Nat.ofDigits 10 l := by
  induction l with
  | nil => simp [Nat.ofDigits]
  | cons d L ih =>
    simp only [List.foldr_cons, ih, Nat.ofDigits_cons]
    ring

lemma foldl_digit_chars (l : List Nat) (hl : ∀ d ∈ l, d < 10) (acc : Nat) :
    List.foldl (fun a c => 10 * a + (c.toNat - 48)) acc
      (l.map (fun d => Char.ofNat (48 + d))) =
    List.foldl (fun a d => 10 * a + d) acc l := by
  induction l generalizing acc with
  | nil => rfl
  | cons d L ih =>
    simp only [List.map_cons, List.foldl_cons]
    have hv : (Char.ofNat (48 + d)).toNat = 48 + d :=
      char_toNat_valid (Or.inl (by have := hl d (by simp); omega))
    rw [hv, show 48 + d - 48 = d from by omega]
    exact ih (fun x hx => hl x (by simp [hx])) _

lemma decValue_natToDec (n : Nat) : decValue (natToDec n) = n := by
  by_cases hn : n = 0
  · subst hn; decide
  · unfold natToDec decValue
    rw [if_neg hn]
    rw [foldl_digit_chars _ (fun d hd =>
      Nat.digits_lt_base (by omega) (List.mem_reverse.mp hd)) 0]
    rw [List.foldl_reverse]
    rw [foldr_ofDigits]
    exact Nat.ofDigits_digits 10 n

lemma takeWhile_append_all {p : Char → Bool} (l r : List Char)
    (hl : ∀ x ∈ l, p x = true) (hr : ∀ c ∈ r.head?, p c = false) :
    (l ++ r).takeWhile p = l ∧ (l ++ r).dropWhile p = r := by
  induction l with
  | nil =>
    simp only [List.nil_append]
    cases r with
    | nil => exact ⟨rfl, rfl⟩
    | cons c r' =>
      have hc := hr c rfl
      simp [List.takeWhile_cons, List.dropWhile_cons, hc]
  | cons x l' ih =>
    have hx := hl x (by simp)
    obtain ⟨iht, ihd⟩ := ih (fun y hy => hl y (by simp [hy]))
    simp [List.takeWhile_cons, List.dropWhile_cons, hx, iht, ihd]

lemma parseNatTok_natToDec (n : Nat) (rest : List Char)
    (hrest : ∀ c ∈ rest.head?, isDigit c = false) :
    parseNatTok (natToDec n ++ rest) = some (n, rest) := by
  have ⟨ht, hd⟩ := takeWhile_append_all (natToDec n) rest (natToDec_all_digits n) hrest
  unfold parseNatTok
  rw [ht, hd]
  cases hn : natToDec n with
  | nil => exact absurd hn (natToDec_ne_nil n)
  | cons c cs =>
    dsimp only
    rw [← hn, decValue_natToDec]

lemma parseNumTok_intToDec (n : Int) (rest : List Char)
    (hrest : ∀ c ∈ rest.head?, isDigit c = false) :
    parseNumTok (intToDec n ++ rest) = some (n, rest) := by
  by_cases hn : n < 0
  · rw [show intToDec n = '-' :: natToDec n.natAbs from by unfold intToDec; rw [if_pos hn]]
    simp only [List.cons_append, parseNumTok, if_true]
    rw [parseNatTok_natToDec _ _ hrest]
    simp only [Option.map_some']
    congr 1
    have : ((n.natAbs : Int)) = -n := by omega
    rw [Prod.mk.injEq]
    exact ⟨by omega, rfl⟩
  · rw [show intToDec n = natToDec n.toNat from by unfold intToDec; rw [if_neg hn]]
    cases hn2 : natToDec n.toNat with
    | nil => exact absurd hn2 (natToDec_ne_nil _)
    | cons c cs =>
      have hdig : isDigit c = true := natToDec_all_digits n.toNat c (by rw [hn2]; simp)
      have hnd : ¬ c = '-' := by
        intro h
        subst h
        exact absurd hdig (by decide)
      simp only [List.cons_append, parseNumTok]
      rw [if_neg hnd]
      have hres : parseNatTok ((c :: cs) ++ rest) = some (n.toNat, rest) := by
        rw [← hn2]
        exact parseNatTok_natToDec _ _ hrest
      have hres' : parseNatTok (c :: (cs ++ rest)) = some (n.toNat, rest) := hres
      rw [hres']
      simp only [Option.map_some']
      congr 1
      rw [Prod.mk.injEq]
      exact ⟨by omega, rfl⟩




lemma digit_not_ws {c : Char} (h : isDigit c = true) : jsonIsWS c = false := by
  cases hws : jsonIsWS c with
  | false => rfl
  | true =>
    exfalso
    simp only [jsonIsWS, Bool.or_eq_true, decide_eq_true_eq] at hws
    rcases hws with ((rfl | rfl) | rfl) | rfl <;> exact absurd h (by decide)

lemma digit_ne_delims {c : Char} (h : isDigit c = true) :
    ¬ c = '"' ∧ ¬ c = lbrace ∧ ¬ c = '[' := by
  refine ⟨?_, ?_, ?_⟩ <;> rintro rfl <;> exact absurd h (by decide)

lemma valText_str (s : List Char) : ValText 1 (strText s) (Json.str s) := by
  intro f pre rest hpre _hrest
  rw [parseJsonF]
  have hsk : skipWS (pre ++ strText s ++ rest) =
      '"' :: ((s.map escapeChar).flatten ++ '"' :: rest) := by
    rw [List.append_assoc, skipWS_append_ws _ _ hpre,
      show strText s ++ rest = '"' :: ((s.map escapeChar).flatten ++ '"' :: rest) from by
        simp [strText],
      skipWS_cons_not_ws _ (by decide)]
  rw [hsk]
  dsimp only
  rw [if_pos rfl, parseStr_strText]
  rfl

lemma intToDec_head_cases (n : Int) :
    ∃ c cs, intToDec n = c :: cs ∧ (c = '-' ∨ isDigit c = true) := by
  unfold intToDec
  by_cases hn : n < 0
  · rw [if_pos hn]; exact ⟨'-', _, rfl, Or.inl rfl⟩
  · rw [if_neg hn]
    cases h : natToDec n.toNat with
    | nil => exact absurd h (natToDec_ne_nil _)
    | cons c cs =>
      exact ⟨c, cs, rfl, Or.inr (natToDec_all_digits _ c (by rw [h]; simp))⟩

lemma valText_num (n : Int) : ValText 1 (intToDec n) (Json.num n) := by
  intro f pre rest hpre hrest
  rw [parseJsonF]
  obtain ⟨c, cs, hcons, hc⟩ := intToDec_head_cases n
  have hws : jsonIsWS c = false := by
    rcases hc with rfl | hd
    · decide
    · exact digit_not_ws hd
  have hne : ¬ c = '"' ∧ ¬ c = lbrace ∧ ¬ c = '[' := by
    rcases hc with rfl | hd
    · exact ⟨by decide, by decide, by decide⟩
    · exact digit_ne_delims hd
  have hsk : skipWS (pre ++ intToDec n ++ rest) = c :: (cs ++ rest) := by
    rw [List.append_assoc, skipWS_append_ws _ _ hpre, hcons, List.cons_append,
      skipWS_cons_not_ws _ hws]
  rw [hsk]
  dsimp only
  rw [if_neg hne.1, if_neg hne.2.1, if_neg hne.2.2,
    show c :: (cs ++ rest) = intToDec n ++ rest from by rw [hcons]; rfl,
    parseNumTok_intToDec n rest hrest]
  rfl

lemma valText_mono {K : Nat} {txt : List Char} {j : Json} (h : ValText K txt j) (d : Nat) :
    ValText (K + d) txt j := by
  intro f pre rest hpre hrest
  have hh := h (f + d) pre rest hpre hrest
  rwa [show f + d + K = f + (K + d) from by omega] at hh

lemma optBind_some {A B : Type} (a : A) (f : A → Option B) :
    (do let x ← some a; f x) = f a := rfl

lemma parseArrItems_val (g K : Nat) (v : List Char) (j : Json)
    (hv : ValText K v j) (pre after : List Char)
    (hpre : ∀ c ∈ pre, jsonIsWS c = true)
    (hhead : ∀ c ∈ after.head?, isDigit c = false) :
    parseArrItems (g + K + 1) (pre ++ v ++ after) =
      match skipWS after with
      | [] => none
      | c :: r2 =>
        if c = ',' then (parseArrItems (g + K) r2).map (fun p => (j :: p.1, p.2))
        else if c = ']' then some ([j], r2)
        else none := by
  rw [parseArrItems]
  rw [hv g pre after hpre hhead]
  rfl

lemma parseObjMembers_kv (g K : Nat) (k v : List Char) (j : Json)
    (hv : ValText K v j) (pre after : List Char)
    (hpre : ∀ c ∈ pre, jsonIsWS c = true)
    (hhead : ∀ c ∈ after.head?, isDigit c = false) :
    parseObjMembers (g + K + 1) (pre ++ kvText k v ++ after) =
      match skipWS after with
      | [] => none
      | c :: r5 =>
        if c = ',' then (parseObjMembers (g + K) r5).map (fun p => ((k, j) :: p.1, p.2))
        else if c = rbrace then some ([(k, j)], r5)
        else none := by
  rw [parseObjMembers]
  have hsk : skipWS (pre ++ kvText k v ++ after) =
      '"' :: ((k.map escapeChar).flatten ++ '"' :: ':' :: ' ' :: (v ++ after)) := by
    rw [List.append_assoc, skipWS_append_ws _ _ hpre,
      show kvText k v ++ after =
        '"' :: ((k.map escapeChar).flatten ++ '"' :: ':' :: ' ' :: (v ++ after)) from by
        simp [kvText, strText],
      skipWS_cons_not_ws _ (by decide)]
  rw [hsk]
  dsimp only
  rw [if_pos rfl, parseStr_strText, optBind_some]
  rw [skipWS_cons_not_ws _ (by decide)]
  dsimp only
  rw [if_pos rfl]
  have hval : parseJsonF (g + K) (' ' :: (v ++ after)) = some (j, after) := by
    have hh := hv g [' '] after (by intro c hc; simp at hc; subst hc; rfl) hhead
    simpa using hh
  rw [hval]
  rfl

lemma nlPad_head (q : Nat) (s : List Char) :
    ∀ c ∈ (nlPad q ++ s).head?, isDigit c = false := by
  intro c hc
  simp [nlPad] at hc
  subst hc
  rfl

lemma nlPad_ws (q : Nat) : ∀ c ∈ nlPad q, jsonIsWS c = true := by
  intro c hc
  rcases List.mem_cons.mp hc with rfl | hc
  · rfl
  · rw [List.eq_of_mem_replicate hc]; rfl

lemma parseArrItems_entries (K p q : Nat) (rest : List Char) :
    ∀ (es : List (List Char × Json)) (e : List Char × Json),
    (∀ x ∈ e :: es, ValText K x.1 x.2) →
    ∀ (pre : List Char) (f : Nat), (∀ c ∈ pre, jsonIsWS c = true) →
    parseArrItems (f + (e :: es).length * (K + 1))
      (pre ++ joinSep (',' :: nlPad p) ((e :: es).map Prod.fst) ++ nlPad q ++ ']' :: rest)
      = some ((e :: es).map Prod.snd, rest) := by
  intro es
  induction es with
  | nil =>
    intro e he pre f hpre
    rw [show f + ([e].length) * (K + 1) = f + K + 1 from by simp; omega,
      show pre ++ joinSep (',' :: nlPad p) ([e].map Prod.fst) ++ nlPad q ++ ']' :: rest
        = pre ++ e.1 ++ (nlPad q ++ ']' :: rest) from by simp [joinSep],
      parseArrItems_val f K e.1 e.2 (he e (by simp)) pre _ hpre (nlPad_head q _)]
    rw [show skipWS (nlPad q ++ ']' :: rest) = ']' :: rest from by
      rw [skipWS_nlPad, skipWS_cons_not_ws _ (by decide)]]
    dsimp only
    rw [if_neg (by decide), if_pos rfl]
    simp
  | cons y ys ih =>
    intro e he pre f hpre
    rw [show f + ((e :: y :: ys).length) * (K + 1)
          = (f + (y :: ys).length * (K + 1)) + K + 1 from by simp; ring,
      show pre ++ joinSep (',' :: nlPad p) ((e :: y :: ys).map Prod.fst) ++ nlPad q ++ ']' :: rest
        = pre ++ e.1 ++ (',' :: (nlPad p
            ++ (joinSep (',' :: nlPad p) ((y :: ys).map Prod.fst) ++ (nlPad q ++ ']' :: rest))))
        from by simp [joinSep],
      parseArrItems_val _ K e.1 e.2 (he e (by simp)) pre _ hpre (by intro c hc; simp at hc; subst hc; rfl)]
    rw [skipWS_cons_not_ws _ (by decide)]
    dsimp only
    rw [if_pos rfl,
      show nlPad p ++ (joinSep (',' :: nlPad p) ((y :: ys).map Prod.fst) ++ (nlPad q ++ ']' :: rest))
        = nlPad p ++ joinSep (',' :: nlPad p) ((y :: ys).map Prod.fst) ++ nlPad q ++ ']' :: rest
        from by simp,
      show f + (y :: ys).length * (K + 1) + K = (f + K) + (y :: ys).length * (K + 1) from by ring,
      ih y (fun x hx => he x (by simp at hx ⊢; tauto)) (nlPad p) (f + K) (nlPad_ws p)]
    rfl

lemma parseObjMembers_entries (K p q : Nat) (rest : List Char) :
    ∀ (es : List (List Char × List Char × Json)) (e : List Char × List Char × Json),
    (∀ x ∈ e :: es, ValText K x.2.1 x.2.2) →
    ∀ (pre : List Char) (f : Nat), (∀ c ∈ pre, jsonIsWS c = true) →
    parseObjMembers (f + (e :: es).length * (K + 1))
      (pre ++ joinSep (',' :: nlPad p) ((e :: es).map (fun x => kvText x.1 x.2.1))
        ++ nlPad q ++ rbrace :: rest)
      = some ((e :: es).map (fun x => (x.1, x.2.2)), rest) := by
  intro es
  induction es with
  | nil =>
    intro e he pre f hpre
    rw [show f + ([e].length) * (K + 1) = f + K + 1 from by simp; omega,
      show pre ++ joinSep (',' :: nlPad p) ([e].map (fun x => kvText x.1 x.2.1))
          ++ nlPad q ++ rbrace :: rest
        = pre ++ kvText e.1 e.2.1 ++ (nlPad q ++ rbrace :: rest) from by simp [joinSep],
      parseObjMembers_kv f K e.1 e.2.1 e.2.2 (he e (by simp)) pre _ hpre (nlPad_head q _)]
    rw [show skipWS (nlPad q ++ rbrace :: rest) = rbrace :: rest from by
      rw [skipWS_nlPad, skipWS_cons_not_ws _ (by decide)]]
    dsimp only
    rw [if_neg (by decide), if_pos rfl]
    simp
  | cons y ys ih =>
    intro e he pre f hpre
    rw [show f + ((e :: y :: ys).length) * (K + 1)
          = (f + (y :: ys).length * (K + 1)) + K + 1 from by simp; ring,
      show pre ++ joinSep (',' :: nlPad p) ((e :: y :: ys).map (fun x => kvText x.1 x.2.1))
            ++ nlPad q ++ rbrace :: rest
        = pre ++ kvText e.1 e.2.1 ++ (',' :: (nlPad p
            ++ (joinSep (',' :: nlPad p) ((y :: ys).map (fun x => kvText x.1 x.2.1))
              ++ (nlPad q ++ rbrace :: rest))))
        from by simp [joinSep],
      parseObjMembers_kv _ K e.1 e.2.1 e.2.2 (he e (by simp)) pre _ hpre
        (by intro c hc; simp at hc; subst hc; rfl)]
    rw [skipWS_cons_not_ws _ (by decide)]
    dsimp only
    rw [if_pos rfl,
      show nlPad p ++ (joinSep (',' :: nlPad p) ((y :: ys).map (fun x => kvText x.1 x.2.1))
            ++ (nlPad q ++ rbrace :: rest))
        = nlPad p ++ joinSep (',' :: nlPad p) ((y :: ys).map (fun x => kvText x.1 x.2.1))
            ++ nlPad q ++ rbrace :: rest
        from by simp,
      show f + (y :: ys).length * (K + 1) + K = (f + K) + (y :: ys).length * (K + 1) from by ring,
      ih y (fun x hx => he x (by simp at hx ⊢; tauto)) (nlPad p) (f + K) (nlPad_ws p)]
    rfl

lemma kvText_head (k v : List Char) :
    kvText k v = '"' :: (((k.map escapeChar).flatten ++ ['"']) ++ ':' :: ' ' :: v) := rfl

lemma joinSep_cons_head (sep : List Char) (x : List Char) (xs : List (List Char))
    (s : List Char) (c : Char) (t : List Char) (hx : x = c :: t) :
    ∃ t2, joinSep sep (x :: xs) ++ s = c :: t2 := by
  cases xs with
  | nil => exact ⟨t ++ s, by rw [joinSep, hx]; rfl⟩
  | cons y ys =>
    exact ⟨t ++ sep ++ joinSep sep (y :: ys) ++ s, by rw [joinSep, hx]; simp⟩

lemma joinSep_kv_head (sep : List Char) (e : List Char × List Char × Json)
    (es : List (List Char × List Char × Json)) (s : List Char) :
    ∃ t, joinSep sep ((e :: es).map (fun x => kvText x.1 x.2.1)) ++ s = '"' :: t := by
  rw [List.map_cons]
  exact joinSep_cons_head sep _ _ s _ _ (kvText_head e.1 e.2.1)

lemma valText_obj (K ind : Nat) (e : List Char × List Char × Json)
    (es : List (List Char × List Char × Json))
    (hes : ∀ x ∈ e :: es, ValText K x.2.1 x.2.2) :
    ValText ((e :: es).length * (K + 1) + 1)
      (objText ind ((e :: es).map (fun x => kvText x.1 x.2.1)))
      (Json.obj ((e :: es).map (fun x => (x.1, x.2.2)))) := by
  intro f pre rest hpre _hrest
  rw [show f + ((e :: es).length * (K + 1) + 1)
        = (f + (e :: es).length * (K + 1)) + 1 from by ring,
    parseJsonF]
  obtain ⟨t2, ht2⟩ := joinSep_kv_head (',' :: nlPad (ind + 4)) e es (nlPad ind ++ rbrace :: rest)
  have hsk : skipWS (pre ++ objText ind ((e :: es).map (fun x => kvText x.1 x.2.1)) ++ rest)
      = lbrace :: (nlPad (ind + 4)
          ++ (joinSep (',' :: nlPad (ind + 4)) ((e :: es).map (fun x => kvText x.1 x.2.1))
            ++ (nlPad ind ++ rbrace :: rest))) := by
    rw [List.append_assoc, skipWS_append_ws _ _ hpre,
      show objText ind ((e :: es).map (fun x => kvText x.1 x.2.1)) ++ rest
        = lbrace :: (nlPad (ind + 4)
            ++ (joinSep (',' :: nlPad (ind + 4)) ((e :: es).map (fun x => kvText x.1 x.2.1))
              ++ (nlPad ind ++ rbrace :: rest))) from by simp [objText],
      skipWS_cons_not_ws _ (by decide)]
  rw [hsk]
  dsimp only
  rw [if_neg (by decide), if_pos rfl,
    show skipWS (nlPad (ind + 4)
        ++ (joinSep (',' :: nlPad (ind + 4)) ((e :: es).map (fun x => kvText x.1 x.2.1))
          ++ (nlPad ind ++ rbrace :: rest))) = '"' :: t2 from by
      rw [skipWS_nlPad, ht2, skipWS_cons_not_ws _ (by decide)]]
  dsimp only
  rw [if_neg (by decide), ← ht2,
    show joinSep (',' :: nlPad (ind + 4)) ((e :: es).map (fun x => kvText x.1 x.2.1))
        ++ (nlPad ind ++ rbrace :: rest)
      = [] ++ joinSep (',' :: nlPad (ind + 4)) ((e :: es).map (fun x => kvText x.1 x.2.1))
        ++ nlPad ind ++ rbrace :: rest from by simp,
    parseObjMembers_entries K (ind + 4) ind rest es e hes [] f (by simp)]
  rfl

lemma valText_arr (K p q : Nat) (e : List Char × Json) (es : List (List Char × Json))
    (hes : ∀ x ∈ e :: es, ValText K x.1 x.2)
    (hhead : ∃ c t, e.1 = c :: t ∧ jsonIsWS c = false ∧ ¬ c = ']') :
    ValText ((e :: es).length * (K + 1) + 1)
      ('[' :: (nlPad p ++ joinSep (',' :: nlPad p) ((e :: es).map Prod.fst)) ++ nlPad q ++ [']'])
      (Json.arr ((e :: es).map Prod.snd)) := by
  intro f pre rest hpre _hrest
  rw [show f + ((e :: es).length * (K + 1) + 1)
        = (f + (e :: es).length * (K + 1)) + 1 from by ring,
    parseJsonF]
  obtain ⟨c, t, hct, hcws, hcne⟩ := hhead
  have hjoin : ∃ t2, joinSep (',' :: nlPad p) ((e :: es).map Prod.fst)
      ++ (nlPad q ++ ']' :: rest) = c :: t2 := by
    rw [List.map_cons]
    exact joinSep_cons_head _ _ _ _ _ _ hct
  obtain ⟨t2, ht2⟩ := hjoin
  have hsk : skipWS (pre ++ ('[' :: (nlPad p ++ joinSep (',' :: nlPad p)
        ((e :: es).map Prod.fst)) ++ nlPad q ++ [']']) ++ rest)
      = '[' :: (nlPad p ++ (joinSep (',' :: nlPad p) ((e :: es).map Prod.fst)
          ++ (nlPad q ++ ']' :: rest))) := by
    rw [List.append_assoc, skipWS_append_ws _ _ hpre,
      show ('[' :: (nlPad p ++ joinSep (',' :: nlPad p) ((e :: es).map Prod.fst))
            ++ nlPad q ++ [']']) ++ rest
        = '[' :: (nlPad p ++ (joinSep (',' :: nlPad p) ((e :: es).map Prod.fst)
            ++ (nlPad q ++ ']' :: rest))) from by simp,
      skipWS_cons_not_ws _ (by decide)]
  rw [hsk]
  dsimp only
  rw [if_neg (by decide), if_neg (by decide), if_pos rfl,
    show skipWS (nlPad p ++ (joinSep (',' :: nlPad p) ((e :: es).map Prod.fst)
        ++ (nlPad q ++ ']' :: rest))) = c :: t2 from by
      rw [skipWS_nlPad, ht2, skipWS_cons_not_ws _ hcws]]
  dsimp only
  rw [if_neg hcne, ← ht2,
    show joinSep (',' :: nlPad p) ((e :: es).map Prod.fst) ++ (nlPad q ++ ']' :: rest)
      = [] ++ joinSep (',' :: nlPad p) ((e :: es).map Prod.fst) ++ nlPad q ++ ']' :: rest
      from by simp,
    parseArrItems_entries K p q rest es e hes [] f (by simp)]
  rfl


lemma valText_obj13 (ind : Nat) (e : List Char × List Char × Json)
    (es : List (List Char × List Char × Json))
    (he : ∀ x ∈ e :: es, ValText 1 x.2.1 x.2.2)
    (hlen : (e :: es).length * 2 + 1 ≤ 13) :
    ValText 13 (objText ind ((e :: es).map (fun x => kvText x.1 x.2.1)))
      (Json.obj ((e :: es).map (fun x => (x.1, x.2.2)))) := by
  have h := valText_mono (valText_obj 1 ind e es he) (13 - ((e :: es).length * 2 + 1))
  rwa [show (e :: es).length * (1 + 1) + 1 + (13 - ((e :: es).length * 2 + 1)) = 13
    from by omega] at h

lemma valText_dumps_chapter (c : ChapterOut) :
    ValText 13 (dumps_chapter c) (chapterToJson c) := by
  rcases hf : c.pdf_filename with _ | f <;> rcases hg : c.pdf_folder with _ | g
  · rw [show dumps_chapter c = objText 8
        (((tl "chapter_name", strText c.chapter_name, Json.str c.chapter_name) ::
          [(tl "tag", strText c.tag, Json.str c.tag),
           (tl "chapter_start_page_number", intToDec c.chapter_start_page_number,
             Json.num c.chapter_start_page_number),
           (tl "chapter_end_page_number", intToDec c.chapter_end_page_number,
             Json.num c.chapter_end_page_number)]).map (fun x => kvText x.1 x.2.1))
        from by simp [dumps_chapter, hf, hg],
      show chapterToJson c = Json.obj
        (((tl "chapter_name", strText c.chapter_name, Json.str c.chapter_name) ::
          [(tl "tag", strText c.tag, Json.str c.tag),
           (tl "chapter_start_page_number", intToDec c.chapter_start_page_number,
             Json.num c.chapter_start_page_number),
           (tl "chapter_end_page_number", intToDec c.chapter_end_page_number,
             Json.num c.chapter_end_page_number)]).map (fun x => (x.1, x.2.2)))
        from by simp [chapterToJson, hf, hg]]
    refine valText_obj13 8 _ _ ?_ (by simp)
    intro x hx
    simp at hx
    rcases hx with rfl | rfl | rfl | rfl <;> dsimp only <;>
      first
      | exact valText_str _
      | exact valText_num _
  · rw [show dumps_chapter c = objText 8
        (((tl "chapter_name", strText c.chapter_name, Json.str c.chapter_name) ::
          [(tl "tag", strText c.tag, Json.str c.tag),
           (tl "chapter_start_page_number", intToDec c.chapter_start_page_number,
             Json.num c.chapter_start_page_number),
           (tl "chapter_end_page_number", intToDec c.chapter_end_page_number,
             Json.num c.chapter_end_page_number),
           (tl "pdf_folder", strText g, Json.str g)]).map (fun x => kvText x.1 x.2.1))
        from by simp [dumps_chapter, hf, hg],
      show chapterToJson c = Json.obj
        (((tl "chapter_name", strText c.chapter_name, Json.str c.chapter_name) ::
          [(tl "tag", strText c.tag, Json.str c.tag),
           (tl "chapter_start_page_number", intToDec c.chapter_start_page_number,
             Json.num c.chapter_start_page_number),
           (tl "chapter_end_page_number", intToDec c.chapter_end_page_number,
             Json.num c.chapter_end_page_number),
           (tl "pdf_folder", strText g, Json.str g)]).map (fun x => (x.1, x.2.2)))
        from by simp [chapterToJson, hf, hg]]
    refine valText_obj13 8 _ _ ?_ (by simp)
    intro x hx
    simp at hx
    rcases hx with rfl | rfl | rfl | rfl | rfl <;> dsimp only <;>
      first
      | exact valText_str _
      | exact valText_num _
  · rw [show dumps_chapter c = objText 8
        (((tl "chapter_name", strText c.chapter_name, Json.str c.chapter_name) ::
          [(tl "tag", strText c.tag, Json.str c.tag),
           (tl "chapter_start_page_number", intToDec c.chapter_start_page_number,
             Json.num c.chapter_start_page_number),
           (tl "chapter_end_page_number", intToDec c.chapter_end_page_number,
             Json.num c.chapter_end_page_number),
           (tl "pdf_filename", strText f, Json.str f)]).map (fun x => kvText x.1 x.2.1))
        from by simp [dumps_chapter, hf, hg],
      show chapterToJson c = Json.obj
        (((tl "chapter_name", strText c.chapter_name, Json.str c.chapter_name) ::
          [(tl "tag", strText c.tag, Json.str c.tag),
           (tl "chapter_start_page_number", intToDec c.chapter_start_page_number,
             Json.num c.chapter_start_page_number),
           (tl "chapter_end_page_number", intToDec c.chapter_end_page_number,
             Json.num c.chapter_end_page_number),
           (tl "pdf_filename", strText f, Json.str f)]).map (fun x => (x.1, x.2.2)))
        from by simp [chapterToJson, hf, hg]]
    refine valText_obj13 8 _ _ ?_ (by simp)
    intro x hx
    simp at hx
    rcases hx with rfl | rfl | rfl | rfl | rfl <;> dsimp only <;>
      first
      | exact valText_str _
      | exact valText_num _
  · rw [show dumps_chapter c = objText 8
        (((tl "chapter_name", strText c.chapter_name, Json.str c.chapter_name) ::
          [(tl "tag", strText c.tag, Json.str c.tag),
           (tl "chapter_start_page_number", intToDec c.chapter_start_page_number,
             Json.num c.chapter_start_page_number),
           (tl "chapter_end_page_number", intToDec c.chapter_end_page_number,
             Json.num c.chapter_end_page_number),
           (tl "pdf_filename", strText f, Json.str f),
           (tl "pdf_folder", strText g, Json.str g)]).map (fun x => kvText x.1 x.2.1))
        from by simp [dumps_chapter, hf, hg],
      show chapterToJson c = Json.obj
        (((tl "chapter_name", strText c.chapter_name, Json.str c.chapter_name) ::
          [(tl "tag", strText c.tag, Json.str c.tag),
           (tl "chapter_start_page_number", intToDec c.chapter_start_page_number,
             Json.num c.chapter_start_page_number),
           (tl "chapter_end_page_number", intToDec c.chapter_end_page_number,
             Json.num c.chapter_end_page_number),
           (tl "pdf_filename", strText f, Json.str f),
           (tl "pdf_folder", strText g, Json.str g)]).map (fun x => (x.1, x.2.2)))
        from by simp [chapterToJson, hf, hg]]
    refine valText_obj13 8 _ _ ?_ (by simp)
    intro x hx
    simp at hx
    rcases hx with rfl | rfl | rfl | rfl | rfl | rfl <;> dsimp only <;>
      first
      | exact valText_str _
      | exact valText_num _


lemma valText_of_le {K K2 : Nat} {txt : List Char} {j : Json}
    (h : ValText K txt j) (hle : K ≤ K2) : ValText K2 txt j := by
  have h2 := valText_mono h (K2 - K)
  rwa [show K + (K2 - K) = K2 from by omega] at h2

lemma dumps_chapter_head (c : ChapterOut) : ∃ t, dumps_chapter c = lbrace :: t :=
  ⟨_, rfl⟩

lemma valText_chaptersArrText (cs : List ChapterOut) :
    ValText (cs.length * 14 + 1) (chaptersArrText cs) (Json.arr (cs.map chapterToJson)) := by
  cases cs with
  | nil =>
    intro f pre rest hpre _hrest
    rw [show f + (([] : List ChapterOut).length * 14 + 1) = f + 1 from by simp,
      parseJsonF]
    have hsk : skipWS (pre ++ chaptersArrText [] ++ rest) = '[' :: (']' :: rest) := by
      rw [List.append_assoc, skipWS_append_ws _ _ hpre,
        show chaptersArrText [] ++ rest = '[' :: (']' :: rest) from rfl,
        skipWS_cons_not_ws _ (by decide)]
    rw [hsk]
    dsimp only
    rw [if_neg (by decide), if_neg (by decide), if_pos rfl,
      skipWS_cons_not_ws _ (by decide)]
    dsimp only
    rw [if_pos rfl]
    rfl
  | cons c0 cs0 =>
    have he : ∀ x ∈ (dumps_chapter c0, chapterToJson c0) ::
        cs0.map (fun x => (dumps_chapter x, chapterToJson x)), ValText 13 x.1 x.2 := by
      intro x hx
      rcases List.mem_cons.mp hx with rfl | hx
      · exact valText_dumps_chapter c0
      · obtain ⟨y, _, rfl⟩ := List.mem_map.mp hx
        exact valText_dumps_chapter y
    obtain ⟨t, ht⟩ := dumps_chapter_head c0
    have hh : ∃ ch tt, ((dumps_chapter c0, chapterToJson c0) :
          List Char × Json).1 = ch :: tt ∧ jsonIsWS ch = false ∧ ¬ ch = ']' :=
      ⟨lbrace, t, ht, by decide, by decide⟩
    have harr := valText_arr 13 8 4 (dumps_chapter c0, chapterToJson c0)
      (cs0.map (fun x => (dumps_chapter x, chapterToJson x))) he hh
    rw [show (c0 :: cs0).length * 14 + 1
        = ((dumps_chapter c0, chapterToJson c0) ::
            cs0.map (fun x => (dumps_chapter x, chapterToJson x))).length * (13 + 1) + 1
        from by simp,
      show chaptersArrText (c0 :: cs0)
        = '[' :: (nlPad 8 ++ joinSep (',' :: nlPad 8)
            (((dumps_chapter c0, chapterToJson c0) ::
              cs0.map (fun x => (dumps_chapter x, chapterToJson x))).map Prod.fst))
            ++ nlPad 4 ++ [']']
        from by simp [chaptersArrText, List.map_map, Function.comp_def],
      show Json.arr ((c0 :: cs0).map chapterToJson)
        = Json.arr (((dumps_chapter c0, chapterToJson c0) ::
            cs0.map (fun x => (dumps_chapter x, chapterToJson x))).map Prod.snd)
        from by simp [List.map_map, Function.comp_def]]
    exact harr

lemma valText_json_dumps_analysis (r : AnalysisResult) :
    ValText (70 * r.chapters.length + 11) (json_dumps_analysis r) (analysisToJson r) := by
  have hobj := valText_obj (r.chapters.length * 14 + 1) 0
    (tl "confidence_score", intToDec r.confidence_score, Json.num r.confidence_score)
    [(tl "book_title", strText r.book_title, Json.str r.book_title),
     (tl "book_start_page", intToDec r.book_start_page, Json.num r.book_start_page),
     (tl "book_end_page", intToDec r.book_end_page, Json.num r.book_end_page),
     (tl "chapters", chaptersArrText r.chapters, Json.arr (r.chapters.map chapterToJson))]
    (by
      intro x hx
      simp at hx
      rcases hx with rfl | rfl | rfl | rfl | rfl <;> dsimp only
      · exact valText_of_le (valText_num _) (by omega)
      · exact valText_of_le (valText_str _) (by omega)
      · exact valText_of_le (valText_num _) (by omega)
      · exact valText_of_le (valText_num _) (by omega)
      · exact valText_chaptersArrText r.chapters)
  rw [show 70 * r.chapters.length + 11
      = ((tl "confidence_score", intToDec (r.confidence_score : Int),
            Json.num (r.confidence_score : Int)) ::
          [(tl "book_title", strText r.book_title, Json.str r.book_title),
           (tl "book_start_page", intToDec (r.book_start_page : Int),
             Json.num (r.book_start_page : Int)),
           (tl "book_end_page", intToDec (r.book_end_page : Int),
             Json.num (r.book_end_page : Int)),
           (tl "chapters", chaptersArrText r.chapters,
             Json.arr (r.chapters.map chapterToJson))]).length
          * ((r.chapters.length * 14 + 1) + 1) + 1
      from by simp; ring,
    show json_dumps_analysis r
      = objText 0 (((tl "confidence_score", intToDec (r.confidence_score : Int),
            Json.num (r.confidence_score : Int)) ::
          [(tl "book_title", strText r.book_title, Json.str r.book_title),
           (tl "book_start_page", intToDec (r.book_start_page : Int),
             Json.num (r.book_start_page : Int)),
           (tl "book_end_page", intToDec (r.book_end_page : Int),
             Json.num (r.book_end_page : Int)),
           (tl "chapters", chaptersArrText r.chapters,
             Json.arr (r.chapters.map chapterToJson))]).map (fun x => kvText x.1 x.2.1))
      from by simp [json_dumps_analysis],
    show analysisToJson r
      = Json.obj (((tl "confidence_score", intToDec (r.confidence_score : Int),
            Json.num (r.confidence_score : Int)) ::
          [(tl "book_title", strText r.book_title, Json.str r.book_title),
           (tl "book_start_page", intToDec (r.book_start_page : Int),
             Json.num (r.book_start_page : Int)),
           (tl "book_end_page", intToDec (r.book_end_page : Int),
             Json.num (r.book_end_page : Int)),
           (tl "chapters", chaptersArrText r.chapters,
             Json.arr (r.chapters.map chapterToJson))]).map (fun x => (x.1, x.2.2)))
      from by simp [analysisToJson]]
  exact hobj


lemma strText_length (s : List Char) : s.length + 2 ≤ (strText s).length := by
  have h := length_le_flatten_escape s
  simp only [strText, List.length_cons, List.length_append]
  omega

lemma kvText_length (k v : List Char) : k.length + v.length + 4 ≤ (kvText k v).length := by
  have h := strText_length k
  simp only [kvText, List.length_append, List.length_cons]
  omega

lemma intToDec_length (n : Int) : 1 ≤ (intToDec n).length := by
  unfold intToDec
  by_cases hn : n < 0
  · rw [if_pos hn]; simp
  · rw [if_neg hn]
    cases h : natToDec n.toNat with
    | nil => exact absurd h (natToDec_ne_nil _)
    | cons a l => simp

lemma joinSep_length (sep : List Char) (l : List (List Char)) :
    (l.map List.length).sum ≤ (joinSep sep l).length := by
  induction l with
  | nil => simp [joinSep]
  | cons x xs ih =>
    cases xs with
    | nil => simp [joinSep]
    | cons y ys =>
      rw [joinSep]
      simp only [List.map_cons, List.sum_cons, List.length_append] at ih ⊢
      omega

lemma nlPad_length (n : Nat) : (nlPad n).length = n + 1 := by
  simp [nlPad]

lemma objText_length (ind : Nat) (entries : List (List Char)) :
    (entries.map List.length).sum + 8 ≤ (objText ind entries).length := by
  have h := joinSep_length (',' :: nlPad (ind + 4)) entries
  simp only [objText, List.length_cons, List.length_append, nlPad_length]
  omega

lemma dumps_chapter_length (c : ChapterOut) : 93 ≤ (dumps_chapter c).length := by
  unfold dumps_chapter
  refine le_trans ?_ (objText_length 8 _)
  simp only [List.map_append, List.sum_append, List.map_cons, List.sum_cons,
    List.map_nil, List.sum_nil]
  have h1 := kvText_length (tl "chapter_name") (strText c.chapter_name)
  have h1b := strText_length c.chapter_name
  have h2 := kvText_length (tl "tag") (strText c.tag)
  have h2b := strText_length c.tag
  have h3 := kvText_length (tl "chapter_start_page_number")
    (intToDec c.chapter_start_page_number)
  have h3b := intToDec_length (c.chapter_start_page_number : Int)
  have h4 := kvText_length (tl "chapter_end_page_number")
    (intToDec c.chapter_end_page_number)
  have h4b := intToDec_length (c.chapter_end_page_number : Int)
  have e1 : (tl "chapter_name").length = 12 := rfl
  have e2 : (tl "tag").length = 3 := rfl
  have e3 : (tl "chapter_start_page_number").length = 25 := rfl
  have e4 : (tl "chapter_end_page_number").length = 23 := rfl
  omega

lemma sum_dumps_chapter_lengths (l : List ChapterOut) :
    93 * l.length ≤ ((l.map dumps_chapter).map List.length).sum := by
  induction l with
  | nil => simp
  | cons x xs ih =>
    simp only [List.map_cons, List.sum_cons, List.length_cons]
    have h := dumps_chapter_length x
    omega

lemma chaptersArrText_length (cs : List ChapterOut) :
    93 * cs.length ≤ (chaptersArrText cs).length := by
  cases cs with
  | nil => simp [chaptersArrText]
  | cons c0 cs0 =>
    have hj := joinSep_length (',' :: nlPad 8) ((c0 :: cs0).map dumps_chapter)
    have hs := sum_dumps_chapter_lengths (c0 :: cs0)
    simp only [chaptersArrText, List.length_cons, List.length_append,
      nlPad_length] at hj hs ⊢
    omega

lemma json_dumps_analysis_length (r : AnalysisResult) :
    70 * r.chapters.length + 10 ≤ (json_dumps_analysis r).length := by
  unfold json_dumps_analysis
  refine le_trans ?_ (objText_length 0 _)
  simp only [List.map_cons, List.sum_cons, List.map_nil, List.sum_nil]
  have h5 := kvText_length (tl "chapters") (chaptersArrText r.chapters)
  have harr := chaptersArrText_length r.chapters
  omega

lemma json_loads_dumps (r : AnalysisResult) :
    json_loads (json_dumps_analysis r) = some (analysisToJson r) := by
  unfold json_loads
  have hlen := json_dumps_analysis_length r
  have hv := valText_json_dumps_analysis r
    ((json_dumps_analysis r).length + 1 - (70 * r.chapters.length + 11)) [] []
    (by simp) (by simp)
  simp only [List.nil_append, List.append_nil] at hv
  rw [show (json_dumps_analysis r).length + 1
      = ((json_dumps_analysis r).length + 1 - (70 * r.chapters.length + 11))
        + (70 * r.chapters.length + 11) from by omega,
    hv]
  rfl

lemma chaptersOfJson_analysisToJson (r : AnalysisResult) :
    chaptersOfJson (analysisToJson r) = r.chapters.map chapterToJson := rfl

lemma chapterInOfJson_chapterToJson (c : ChapterOut) :
    chapterInOfJson (chapterToJson c) = chapterInOfOut c := by
  rcases hf : c.pdf_filename with _ | f <;> rcases hg : c.pdf_folder with _ | g <;>
    simp only [chapterToJson, chapterInOfOut, hf, hg] <;> rfl

lemma splitFromJson_eq (ctx : SplitCtx) (r : AnalysisResult) :
    splitFromJsonValue ctx (analysisToJson r) = splitDirect ctx r := by
  unfold splitFromJsonValue splitDirect
  rw [chaptersOfJson_analysisToJson, List.map_map]
  congr 1
  exact List.map_congr_left fun x _ => chapterInOfJson_chapterToJson x

/-- C8.  For every `AnalysisResult` and splitting context, serializing the
result to the JSON contract (`json.dumps(result, indent=4)`), reading it
back with `json.load`, and splitting produces exactly the serialized value
and the same list of `SplitUnit`s as splitting directly from the in-memory
result. -/
theorem analysis_json_round_trip (r : AnalysisResult) (ctx : SplitCtx) :
    json_loads (json_dumps_analysis r) = some (analysisToJson r) ∧
    split_pdf_from_json_file ctx (json_dumps_analysis r) = some (splitDirect ctx r) := by
  refine ⟨json_loads_dumps r, ?_⟩
  unfold split_pdf_from_json_file
  rw [json_loads_dumps r, Option.map_some', splitFromJson_eq]

end BookQC
